import Mathlib

/-!
# konfigurator: the local OIDC callback flow

A shallow embedding of `konfigurator.go` and `oidc_generator.go`.

* Go strings are byte sequences (`GoString`).
* The parts of `net/url` the code relies on (`QueryEscape`, `Values.Encode`,
  `ParseQuery`, `Values.Get`, the split of a raw URL into base and query) are
  embedded as functions on byte sequences.
* Handlers are functions from the state they can touch to that state, extended
  by the list of effects they performed, in program order.
* `Orchestrate` and the listener run concurrently; they are embedded as a step
  function over a system state, driven by a list of scheduler actions. One
  action is one statement of `Orchestrate` or one handler run up to its return
  or to the channel send it parks on; the channel is the only thing through
  which a handler and `Orchestrate` act on each other.
* What lies outside the repository (the provider, the browser launcher, the
  environment, `KubeConfig`) enters as a function or a record the definitions
  take as an argument.
* The library functions the code reaches (`Token.Extra` of oauth2,
  `http.Redirect`, `http.HandleFunc`, and what they call in strings, strconv,
  path and net/url) are embedded as functions; three answers of the library are
  taken as given in the record `GoLib`: whether `strconv.ParseFloat` accepts a
  text, whether `url.Parse` reads a URL without scheme as relative, and whether
  the mux refuses a pattern for a reason other than an empty or repeated one.
-/

namespace Konfig

/-! ## Go strings -/

/-- A Go string: an immutable sequence of bytes. -/
abbrev GoString := List (Fin 256)

/-- The bytes of an ASCII literal. -/
def gostr (s : String) : GoString := s.toList.map (fun c => Fin.ofNat c.toNat)

/-- Go errors, identified by their message. -/
abbrev GoError := GoString

/-! ## net/url -/

/-- Byte `%`. -/
def bPercent : Fin 256 := 37
/-- Byte `+`. -/
def bPlus : Fin 256 := 43
/-- Byte ` `. -/
def bSpace : Fin 256 := 32
/-- Byte `&`. -/
def bAmp : Fin 256 := 38
/-- Byte `=`. -/
def bEq : Fin 256 := 61
/-- Byte `;`. -/
def bSemi : Fin 256 := 59
/-- Byte `?`. -/
def bQuestion : Fin 256 := 63
/-- Byte `#`. -/
def bHash : Fin 256 := 35

/-- Function `shouldEscape(c, encodeQueryComponent)` of net/url: everything but
the unreserved characters of RFC 3986 (letters, digits, `-`, `_`, `.`, `~`) is
escaped in a query component. -/
def shouldEscape (c : Fin 256) : Bool :=
  if (97 ≤ c.val ∧ c.val ≤ 122) ∨ (65 ≤ c.val ∧ c.val ≤ 90) ∨ (48 ≤ c.val ∧ c.val ≤ 57) then false
  else if c.val = 45 ∨ c.val = 95 ∨ c.val = 46 ∨ c.val = 126 then false
  else true

/-- The table `upperhex = "0123456789ABCDEF"`, indexed by a nibble. -/
def upperhex (n : Nat) : Fin 256 :=
  if n < 10 then Fin.ofNat (48 + n) else Fin.ofNat (55 + n)

/-- Function `ishex` of net/url. -/
def ishex (c : Fin 256) : Bool :=
  (48 ≤ c.val ∧ c.val ≤ 57) ∨ (97 ≤ c.val ∧ c.val ≤ 102) ∨ (65 ≤ c.val ∧ c.val ≤ 70)

/-- Function `unhex` of net/url. -/
def unhex (c : Fin 256) : Nat :=
  if 48 ≤ c.val ∧ c.val ≤ 57 then c.val - 48
  else if 97 ≤ c.val ∧ c.val ≤ 102 then c.val - 97 + 10
  else if 65 ≤ c.val ∧ c.val ≤ 70 then c.val - 65 + 10
  else 0

/-- What `escape(s, encodeQueryComponent)` emits for one byte. -/
def escapeByte (c : Fin 256) : GoString :=
  if shouldEscape c then
    if c = bSpace then [bPlus]
    else [bPercent, upperhex (c.val / 16), upperhex (c.val % 16)]
  else [c]

/-- Function `url.QueryEscape`. -/
def QueryEscape : GoString → GoString
  | [] => []
  | c :: cs => escapeByte c ++ QueryEscape cs

/-- Function `url.QueryUnescape`; `none` stands for the `EscapeError`. -/
def QueryUnescape : GoString → Option GoString
  | [] => some []
  | c :: cs =>
    if c = bPercent then
      match cs with
      | h1 :: h2 :: rest =>
        if ishex h1 && ishex h2 then
          (QueryUnescape rest).map (fun r => Fin.ofNat (unhex h1 * 16 + unhex h2) :: r)
        else none
      | _ => none
    else if c = bPlus then (QueryUnescape cs).map (fun r => bSpace :: r)
    else (QueryUnescape cs).map (fun r => c :: r)

/-- Function `strings.Cut` for a one-byte separator: the text before the first
separator and the text after it (empty when there is no separator). -/
def cut (sep : Fin 256) : GoString → GoString × GoString
  | [] => ([], [])
  | c :: cs => if c = sep then ([], cs) else ((cut sep cs).map (fun a => c :: a) id)

/-- The segments of a string between occurrences of a one-byte separator. -/
def splitOn (sep : Fin 256) : GoString → List GoString
  | [] => [[]]
  | c :: cs =>
    if c = sep then [] :: splitOn sep cs
    else match splitOn sep cs with
      | [] => [[c]]
      | seg :: segs => (c :: seg) :: segs

/-- Type `url.Values` (`map[string][]string`), as the association list of its
key and value pairs: the values of one key appear in the order they were added. -/
abbrev Values := List (GoString × GoString)

/-- Method `Values.Add`. -/
def Values.Add (v : Values) (key value : GoString) : Values := v ++ [(key, value)]

/-- Method `Values.Get`: the first value of the key, or the empty string. -/
def Values.Get (v : Values) (key : GoString) : GoString :=
  match v.find? (fun p => p.1 = key) with
  | some p => p.2
  | none => []

/-- Go's `<=` on strings: bytewise lexicographic order. -/
def strLe : GoString → GoString → Bool
  | [], _ => true
  | _ :: _, [] => false
  | a :: as, b :: bs => if a.val < b.val then true else if b.val < a.val then false else strLe as bs

/-- Insert a pair in front of the first pair whose key is not smaller. -/
def insertByKey (p : GoString × GoString) : Values → Values
  | [] => [p]
  | q :: qs => if strLe p.1 q.1 then p :: q :: qs else q :: insertByKey p qs

/-- The pairs in the order `Values.Encode` visits them: keys ascending, the
values of one key in the order they were added. -/
def sortByKey (v : Values) : Values := v.foldr insertByKey []

/-- Method `Values.Encode`: the pairs, sorted by key, written to a buffer as
`key=value` with both sides escaped and `&` between them. -/
def Values.Encode (v : Values) : GoString :=
  (sortByKey v).foldl
    (fun buf p =>
      (if buf.length > 0 then buf ++ [bAmp] else buf) ++ QueryEscape p.1 ++ [bEq] ++ QueryEscape p.2)
    []

/-- One round of the loop of `url.ParseQuery` on a segment between `&`: a
segment holding `;`, an empty segment and a segment whose key or value does not
unescape contribute nothing. -/
def parseSegment (seg : GoString) : Option (GoString × GoString) :=
  if bSemi ∈ seg then none
  else if seg = [] then none
  else
    match QueryUnescape (cut bEq seg).1, QueryUnescape (cut bEq seg).2 with
    | some k, some v => some (k, v)
    | _, _ => none

/-- Function `url.ParseQuery`, the values it returns (its error is dropped, as
`URL.Query` does). -/
def ParseQuery (query : GoString) : Values := (splitOn bAmp query).filterMap parseSegment

/-- What `url.Parse` does with the end of a raw URL: the fragment after the first
`#` is cut off, and what remains is cut at the first `?` into the part before
the query and `RawQuery`. -/
def splitURL (rawURL : GoString) : GoString × GoString :=
  cut bQuestion (cut bHash rawURL).1

/-- Method `URL.Query` of a parsed raw URL. -/
def urlQuery (rawURL : GoString) : Values := ParseQuery (splitURL rawURL).2

/-! ## strings, strconv, path and the helpers of net/http -/

/-- Behaviour of Go's libraries that is taken as given rather than spelled out. -/
structure GoLib where
  /-- Function `strconv.ParseFloat(s, 64)` returns no error for this text. -/
  parsesFloat : GoString → Bool
  /-- For a raw URL in which `getScheme` finds no scheme: `url.Parse` returns no
  error and a URL whose `Host` is empty. -/
  parsesRelative : GoString → Bool
  /-- Function `http.HandleFunc` panics on this pattern, given the patterns
  registered before it, for a reason other than the pattern being empty or
  registered already. -/
  refusesPattern : List GoString → GoString → Bool

/-- The table `asciiSpace` of package strings. -/
def asciiSpace (c : Fin 256) : Bool :=
  c.val = 9 ∨ c.val = 10 ∨ c.val = 11 ∨ c.val = 12 ∨ c.val = 13 ∨ c.val = 32

/-- The UTF-8 encodings of the runes above U+007F for which `unicode.IsSpace`
holds: U+0085, U+00A0, U+1680, U+2000 to U+200A, U+2028, U+2029, U+202F,
U+205F, U+3000. -/
def unicodeSpaces : List GoString :=
  [[194, 133], [194, 160], [225, 154, 128],
   [226, 128, 128], [226, 128, 129], [226, 128, 130], [226, 128, 131], [226, 128, 132],
   [226, 128, 133], [226, 128, 134], [226, 128, 135], [226, 128, 136], [226, 128, 137],
   [226, 128, 138], [226, 128, 168], [226, 128, 169], [226, 128, 175], [226, 129, 159],
   [227, 128, 128]]

/-- The text after one leading space rune, if the text starts with one. -/
def dropSpacePrefix (s : GoString) : Option GoString :=
  match s with
  | [] => none
  | c :: cs =>
    if asciiSpace c then some cs
    else (unicodeSpaces.find? (fun sp => sp.isPrefixOf s)).map (fun sp => s.drop sp.length)

/-- The text before one trailing space rune, if the text ends with one. -/
def dropSpaceSuffix (s : GoString) : Option GoString :=
  match s.getLast? with
  | none => none
  | some c =>
    if asciiSpace c then some s.dropLast
    else (unicodeSpaces.find? (fun sp => sp.isSuffixOf s)).map
      (fun sp => s.take (s.length - sp.length))

/-- Leading space runes removed, at most `n` of them. -/
def trimLeftSpace : Nat → GoString → GoString
  | 0, s => s
  | n + 1, s =>
    match dropSpacePrefix s with
    | none => s
    | some t => trimLeftSpace n t

/-- Trailing space runes removed, at most `n` of them. -/
def trimRightSpace : Nat → GoString → GoString
  | 0, s => s
  | n + 1, s =>
    match dropSpaceSuffix s with
    | none => s
    | some t => trimRightSpace n t

/-- Function `strings.TrimSpace`. -/
def TrimSpace (s : GoString) : GoString :=
  trimRightSpace s.length (trimLeftSpace s.length s)

/-- Function `strings.Count(s, ".")`. -/
def countDots (s : GoString) : Nat := s.count 46

/-- The number a text of decimal digits denotes; `none` for an empty text or a
byte that is no digit. -/
def parseDigits (s : GoString) : Option Nat :=
  if s = [] then none
  else s.foldl (fun acc c =>
    match acc with
    | none => none
    | some n => if 48 ≤ c.val ∧ c.val ≤ 57 then some (n * 10 + (c.val - 48)) else none) (some 0)

/-- Function `strconv.ParseInt(s, 10, 64)`; `none` stands for its error (syntax
or range). -/
def ParseInt (s : GoString) : Option Int :=
  match s with
  | [] => none
  | c :: cs =>
    if c.val = 43 then
      match parseDigits cs with
      | some n => if n < 2 ^ 63 then some (Int.ofNat n) else none
      | none => none
    else if c.val = 45 then
      match parseDigits cs with
      | some n => if n ≤ 2 ^ 63 then some (- Int.ofNat n) else none
      | none => none
    else
      match parseDigits s with
      | some n => if n < 2 ^ 63 then some (Int.ofNat n) else none
      | none => none

/-- The loop of `getScheme` of net/url from byte `i` on. -/
def getSchemeFrom (rawURL : GoString) : Nat → GoString → Option (GoString × GoString)
  | _, [] => some ([], rawURL)
  | i, c :: cs =>
    if (97 ≤ c.val ∧ c.val ≤ 122) ∨ (65 ≤ c.val ∧ c.val ≤ 90) then getSchemeFrom rawURL (i + 1) cs
    else if (48 ≤ c.val ∧ c.val ≤ 57) ∨ c.val = 43 ∨ c.val = 45 ∨ c.val = 46 then
      if i = 0 then some ([], rawURL) else getSchemeFrom rawURL (i + 1) cs
    else if c.val = 58 then
      if i = 0 then none else some (rawURL.take i, cs)
    else some ([], rawURL)

/-- Function `getScheme` of net/url: the scheme (empty when there is none) and
the rest; `none` stands for the error `missing protocol scheme`. -/
def getScheme (rawURL : GoString) : Option (GoString × GoString) := getSchemeFrom rawURL 0 rawURL

/-- The digits `strconv.AppendInt(_, n, 16)` uses, for a nibble. -/
def lowerhex (n : Nat) : Fin 256 :=
  if n < 10 then Fin.ofNat (48 + n) else Fin.ofNat (87 + n)

/-- Function `hexEscapeNonASCII` of net/http: every byte from 0x80 on becomes
`%` and its two lower-case hex digits. -/
def hexEscapeNonASCII : GoString → GoString
  | [] => []
  | c :: cs =>
    if 128 ≤ c.val then bPercent :: lowerhex (c.val / 16) :: lowerhex (c.val % 16) :: hexEscapeNonASCII cs
    else c :: hexEscapeNonASCII cs

/-- Function `htmlEscape` of net/http. -/
def htmlEscape : GoString → GoString
  | [] => []
  | c :: cs =>
    (if c.val = 38 then gostr "&amp;"
     else if c.val = 60 then gostr "&lt;"
     else if c.val = 62 then gostr "&gt;"
     else if c.val = 34 then gostr "&#34;"
     else if c.val = 39 then gostr "&#39;"
     else [c]) ++ htmlEscape cs

/-- Function `path.Split`: the text up to and including the last `/`, and the
text after it. -/
def pathSplit (path : GoString) : GoString × GoString :=
  match path.reverse.indexOf? 47 with
  | none => ([], path)
  | some j => (path.take (path.length - j), path.drop (path.length - j))

/-- The elements of a path between its slashes. -/
def pathElements : GoString → List GoString
  | [] => [[]]
  | c :: cs =>
    if c.val = 47 then [] :: pathElements cs
    else match pathElements cs with
      | [] => [[c]]
      | e :: es => (c :: e) :: es

/-- One round of the loop of `path.Clean`: the elements kept so far (most recent
first) after one more element. Empty and `.` elements are dropped; `..` removes
the last kept element that is not itself a kept `..`, is kept when there is
none and the path is not rooted, and is dropped when the path is rooted. -/
def cleanStep (rooted : Bool) (kept : List GoString) (e : GoString) : List GoString :=
  if e = [] ∨ e = [46] then kept
  else if e = [46, 46] then
    match kept with
    | [] => if rooted then [] else [[46, 46]]
    | k :: ks => if k = [46, 46] ∧ ¬ rooted then [46, 46] :: k :: ks else ks
  else e :: kept

/-- Function `path.Clean`. -/
def pathClean (path : GoString) : GoString :=
  if path = [] then [46]
  else
    let rooted := path.head? = some 47
    let kept := ((pathElements path).foldl (cleanStep rooted) []).reverse
    let body := List.intercalate [47] kept
    if rooted then 47 :: body
    else if body = [] then [46] else body

/-- Function `http.StatusText`. -/
def StatusText (code : Nat) : GoString :=
  match code with
  | 100 => gostr "Continue"
  | 101 => gostr "Switching Protocols"
  | 102 => gostr "Processing"
  | 103 => gostr "Early Hints"
  | 200 => gostr "OK"
  | 201 => gostr "Created"
  | 202 => gostr "Accepted"
  | 203 => gostr "Non-Authoritative Information"
  | 204 => gostr "No Content"
  | 205 => gostr "Reset Content"
  | 206 => gostr "Partial Content"
  | 207 => gostr "Multi-Status"
  | 208 => gostr "Already Reported"
  | 226 => gostr "IM Used"
  | 300 => gostr "Multiple Choices"
  | 301 => gostr "Moved Permanently"
  | 302 => gostr "Found"
  | 303 => gostr "See Other"
  | 304 => gostr "Not Modified"
  | 305 => gostr "Use Proxy"
  | 307 => gostr "Temporary Redirect"
  | 308 => gostr "Permanent Redirect"
  | 400 => gostr "Bad Request"
  | 401 => gostr "Unauthorized"
  | 402 => gostr "Payment Required"
  | 403 => gostr "Forbidden"
  | 404 => gostr "Not Found"
  | 405 => gostr "Method Not Allowed"
  | 406 => gostr "Not Acceptable"
  | 407 => gostr "Proxy Authentication Required"
  | 408 => gostr "Request Timeout"
  | 409 => gostr "Conflict"
  | 410 => gostr "Gone"
  | 411 => gostr "Length Required"
  | 412 => gostr "Precondition Failed"
  | 413 => gostr "Request Entity Too Large"
  | 414 => gostr "Request URI Too Long"
  | 415 => gostr "Unsupported Media Type"
  | 416 => gostr "Requested Range Not Satisfiable"
  | 417 => gostr "Expectation Failed"
  | 418 => gostr "I\x27m a teapot"
  | 421 => gostr "Misdirected Request"
  | 422 => gostr "Unprocessable Entity"
  | 423 => gostr "Locked"
  | 424 => gostr "Failed Dependency"
  | 425 => gostr "Too Early"
  | 426 => gostr "Upgrade Required"
  | 428 => gostr "Precondition Required"
  | 429 => gostr "Too Many Requests"
  | 431 => gostr "Request Header Fields Too Large"
  | 451 => gostr "Unavailable For Legal Reasons"
  | 500 => gostr "Internal Server Error"
  | 501 => gostr "Not Implemented"
  | 502 => gostr "Bad Gateway"
  | 503 => gostr "Service Unavailable"
  | 504 => gostr "Gateway Timeout"
  | 505 => gostr "HTTP Version Not Supported"
  | 506 => gostr "Variant Also Negotiates"
  | 507 => gostr "Insufficient Storage"
  | 508 => gostr "Loop Detected"
  | 510 => gostr "Not Extended"
  | 511 => gostr "Network Authentication Required"
  | _ => []

/-! ## Vocabulary of the proofs about net/url -/

/-- A byte `QueryEscape` may emit. -/
def escaped (x : Fin 256) : Bool := !shouldEscape x || x = bPlus || x = bPercent

/-- The text of one pair in an encoded query. -/
def encodePair (p : GoString × GoString) : GoString := QueryEscape p.1 ++ [bEq] ++ QueryEscape p.2

/-- The text `Values.Encode` appends for the pairs after the first. -/
def encodeTail : Values → GoString
  | [] => []
  | p :: ps => bAmp :: encodePair p ++ encodeTail ps

/-! ## oidc_generator.go -/

/-- Type `oauth2.Endpoint`. -/
structure Endpoint where
  AuthURL : GoString
  TokenURL : GoString
deriving DecidableEq, Repr

/-- Type `oauth2.Config`, the fields this program sets. -/
structure Config where
  ClientID : GoString
  RedirectURL : GoString
  Endpoint : Endpoint
deriving DecidableEq, Repr

/-- A value of type `interface{}` as `Token.Extra` can return it. A `float64`
is named by the text it was read from; `other` stands for the arrays and objects
of a JSON response. -/
inductive Iface where
  | nil
  | str (s : GoString)
  | int64 (n : Int)
  | float64 (text : GoString)
  | bool (b : Bool)
  | other
deriving DecidableEq, Repr

/-- The field `raw` of an `oauth2.Token`: the `map[string]interface{}` decoded
from a JSON token response, the `url.Values` parsed from a form-encoded one, or
nothing. -/
inductive Raw where
  | json (fields : List (GoString × Iface))
  | form (vals : Values)
  | none
deriving DecidableEq, Repr

/-- Type `oauth2.Token`, the part `Extra` reads. -/
structure Token where
  raw : Raw
deriving DecidableEq, Repr

/-- Method `Token.Extra` of oauth2. For a JSON response it is the field of that
name, `nil` when there is none. For a form-encoded response it is read from
`vals.Get(key)`, which is the empty string for an absent key: the space-trimmed
text is returned as an `int64` when it has no `.` and `ParseInt` accepts it, as a
`float64` when it has one `.` and `ParseFloat` accepts it, and the untrimmed
string is returned otherwise. -/
def Token.Extra (lib : GoLib) (t : Token) (key : GoString) : Iface :=
  match t.raw with
  | Raw.json fields =>
    match fields.find? (fun p => p.1 = key) with
    | some p => p.2
    | none => Iface.nil
  | Raw.form vals =>
    if countDots (TrimSpace (vals.Get key)) = 0 then
      match ParseInt (TrimSpace (vals.Get key)) with
      | some i => Iface.int64 i
      | none => Iface.str (vals.Get key)
    else if countDots (TrimSpace (vals.Get key)) = 1 then
      if lib.parsesFloat (TrimSpace (vals.Get key)) then Iface.float64 (TrimSpace (vals.Get key))
      else Iface.str (vals.Get key)
    else Iface.str (vals.Get key)
  | Raw.none => Iface.nil

/-- Type `OidcGenerator`. Field `ctx` is the background context and carries no
data; `Exchange` stands for `o.config.Exchange(o.ctx, ·)`, the request to the
provider's token endpoint: its answer to a code, given the codes sent to it
before. `Stream` is an `io.Writer` and has no content of its own: what is
written to it is recorded as an effect. Field `lib` is no field of the source
struct: it holds the behaviour of Go's libraries that is taken as given, where
the methods and the handlers can reach it. -/
structure OidcGenerator where
  config : Config
  localURL : GoString
  localRedirectEndpoint : GoString
  Run : GoString → Option GoError
  Exchange : List GoString → GoString → Except GoError Token
  lib : GoLib

/-- What the program does to the world outside its own data, in program order. -/
inductive Effect where
  /-- A line written through package `log`. -/
  | log (line : GoString)
  /-- One call of `config.Exchange` with this code. -/
  | exchange (code : GoString)
  /-- One call of `kubeConfig.Generate` with this token. -/
  | generate (token : GoString)
  /-- One `io.WriteString` on the response writer. -/
  | write (body : GoString)
  /-- One `WriteHeader` on the response writer. -/
  | writeHeader (code : Nat)
  /-- One `http.Redirect` on the response writer. -/
  | redirect (url : GoString) (code : Nat)
  /-- A send statement on `tokenRetrieved` was reached. -/
  | send (v : Int)
  /-- A value was received from `tokenRetrieved`. -/
  | recv (v : Int)
  /-- One call of the launcher `Run` with this URL. -/
  | run (url : GoString)
  /-- Bytes written to `Stream`. -/
  | print (s : GoString)
  /-- One `http.HandleFunc` registration of this pattern. -/
  | handle (pattern : GoString)
  /-- The goroutine running `srv.ListenAndServe` on this address was started. -/
  | listen (addr : GoString)
  /-- One call of `server.Shutdown`. -/
  | shutdown
deriving DecidableEq, Repr

/-- The codes sent to the token endpoint so far. -/
def exchanged : List Effect → List GoString
  | [] => []
  | Effect.exchange code :: es => code :: exchanged es
  | _ :: es => exchanged es

/-- Outcome of `httpClient`: the client is built from the two environment
variables unless `rootcerts.ConfigureTLS` fails. -/
def httpClient (getenv : GoString → GoString)
    (configureTLS : GoString → GoString → Option GoError) : Except GoError (GoString × GoString) :=
  match configureTLS (getenv (gostr "MYAPP_CAFILE")) (getenv (gostr "MYAPP_CAPATH")) with
  | some err => Except.error err
  | none => Except.ok (getenv (gostr "MYAPP_CAFILE"), getenv (gostr "MYAPP_CAPATH"))

/-- The collaborators `NewOidcGenerator` reaches outside the repository:
the environment, `rootcerts.ConfigureTLS`, provider discovery
(`oidc.NewProvider` followed by `provider.Endpoint()`), `open.Run` and the
token endpoint; and the library behaviour taken as given. -/
structure OidcDeps where
  getenv : GoString → GoString
  configureTLS : GoString → GoString → Option GoError
  newProvider : GoString → Except GoError Endpoint
  openRun : GoString → Option GoError
  exchange : List GoString → GoString → Except GoError Token
  lib : GoLib

/-- Function `NewOidcGenerator`. -/
def NewOidcGenerator (d : OidcDeps) (hostURL clientID localPort localRedirectEndpoint : GoString) :
    Except GoError OidcGenerator :=
  match httpClient d.getenv d.configureTLS with
  | Except.error err => Except.error err
  | Except.ok _ =>
    match d.newProvider hostURL with
    | Except.error err => Except.error err
    | Except.ok endpoint =>
      let localURL := gostr "localhost:" ++ localPort
      Except.ok
        { config :=
            { ClientID := clientID
              RedirectURL := gostr "http://" ++ localURL ++ localRedirectEndpoint
              Endpoint := endpoint }
          localURL := localURL
          localRedirectEndpoint := localRedirectEndpoint
          Run := d.openRun
          Exchange := d.exchange
          lib := d.lib }

/-- Method `OidcGenerator.AuthCodeURL`. -/
def OidcGenerator.AuthCodeURL (o : OidcGenerator) (state nonceValue : GoString) : GoString :=
  let redirect : Values := []
  let redirect := redirect.Add (gostr "client_id") o.config.ClientID
  let redirect := redirect.Add (gostr "nonce") nonceValue
  let redirect := redirect.Add (gostr "redirect_uri") o.config.RedirectURL
  let redirect := redirect.Add (gostr "response_type") (gostr "id_token")
  let redirect := redirect.Add (gostr "scope") (gostr "openid")
  let redirect := redirect.Add (gostr "state") state
  o.config.Endpoint.AuthURL ++ [bQuestion] ++ redirect.Encode

/-- Modelled from the spec: the one-argument `AuthCodeURL(state)` that
`rootHandler` calls is not among the given source files (the method given takes
the nonce as its second argument). The builder of the spec composes the
provider's authorization URL with the client identifier, a freshly generated
nonce, the redirect URI, the fixed response type and scope, and the state; the
nonce generated for the call is given here. -/
def OidcGenerator.AuthCodeURLFresh (o : OidcGenerator) (freshNonce state : GoString) : GoString :=
  o.AuthCodeURL state freshNonce

/-- Method `OidcGenerator.OpenBrowser`: the effects it performs. -/
def OidcGenerator.OpenBrowser (o : OidcGenerator) : List Effect :=
  match o.Run (gostr "http://" ++ o.localURL) with
  | some _ =>
    [Effect.run (gostr "http://" ++ o.localURL),
     Effect.print (gostr "Go to the following url to authenticate: http://" ++ o.localURL ++ gostr "/")]
  | none => [Effect.run (gostr "http://" ++ o.localURL)]

/-- Method `OidcGenerator.GetToken`, run after the effects `tr`: the returned
string, the returned error, and the effects it performed. -/
def OidcGenerator.GetToken (o : OidcGenerator) (tr : List Effect) (code : GoString) :
    GoString × Option GoError × List Effect :=
  match o.Exchange (exchanged tr) code with
  | Except.error err => ([], some err, [Effect.exchange code])
  | Except.ok oauth2Token =>
    match oauth2Token.Extra o.lib (gostr "id_token") with
    | Iface.str rawIDToken => (rawIDToken, none, [Effect.exchange code])
    | _ => ([], some (gostr "missing id_token from oauth2 token"), [Effect.exchange code])

/-! ## konfigurator.go -/

/-- A buffered Go channel of `int`: its capacity, the values in its buffer
(oldest first) and the values of the goroutines parked on a send because the
buffer was full (oldest first). -/
structure Chan where
  cap : Nat
  buf : List Int
  sendq : List Int
deriving DecidableEq, Repr

/-- Expression `make(chan int, n)`. -/
def Chan.make (n : Nat) : Chan := { cap := n, buf := [], sendq := [] }

/-- A send statement `c <- v`: the value enters the buffer when there is room
and the statement completes (`true`); otherwise the goroutine parks on the
channel (`false`). -/
def Chan.send (c : Chan) (v : Int) : Chan × Bool :=
  if c.buf.length < c.cap then ({ c with buf := c.buf ++ [v] }, true)
  else ({ c with sendq := c.sendq ++ [v] }, false)

/-- A receive `<-c`: `none` while the buffer is empty (the receiver waits);
otherwise the oldest value is taken and the oldest parked sender, if any,
completes its send into the freed slot. -/
def Chan.recv (c : Chan) : Option (Int × Chan) :=
  match c.buf with
  | [] => none
  | v :: rest =>
    match c.sendq with
    | [] => some (v, { c with buf := rest })
    | w :: ws => some (v, { c with buf := rest ++ [w], sendq := ws })

/-- Modelled from the spec: type `KubeConfig` and its method `Generate` are not
among the given source files. The credential-emission collaborator is given an
identity token plus the cluster connection parameters and writes a credential
file to its destination; here it records the tokens it was given, oldest first. -/
structure KubeConfig where
  ca : GoString
  url : GoString
  namespace_ : GoString
  generated : List GoString
deriving DecidableEq, Repr

/-- Modelled from the spec: method `KubeConfig.Generate`, which emits the
credential for the token it is given. -/
def KubeConfig.Generate (c : KubeConfig) (token : GoString) : KubeConfig :=
  { c with generated := c.generated ++ [token] }

/-- Type `Konfigurator`. The channel and the `KubeConfig` are references in the
source; here the struct holds what they refer to. -/
structure Konfigurator where
  config : OidcGenerator
  tokenRetrieved : Chan
  state : GoString
  kubeConfig : KubeConfig

/-- The collaborators `NewKonfigurator` reaches besides those of
`NewOidcGenerator`: `uuid.NewV4` (its error is discarded by the source),
`os.Create`, and `NewKubeConfig`, which is not among the given source files. -/
structure KonfDeps where
  oidc : OidcDeps
  uuidV4 : GoString
  create : GoString → Option GoError
  newKubeConfig : GoString → GoString → GoString → GoString → Except GoError KubeConfig

/-- Function `NewKonfigurator`. The destination handed to `NewKubeConfig` is
standard output for an empty path and the created file otherwise; it is named
here by the path. -/
def NewKonfigurator (d : KonfDeps)
    (oidcHost oidcClientID oidcClientPort oidcClientRedirectEndpoint kubeCa kubeAPIURL
      kubeNamespace outputFilePath : GoString) : Except GoError Konfigurator :=
  match NewOidcGenerator d.oidc oidcHost oidcClientID oidcClientPort oidcClientRedirectEndpoint with
  | Except.error err => Except.error err
  | Except.ok config =>
    match (if outputFilePath ≠ [] then d.create outputFilePath else none) with
    | some err => Except.error err
    | none =>
      match d.newKubeConfig kubeCa kubeAPIURL kubeNamespace outputFilePath with
      | Except.error err => Except.error err
      | Except.ok kubeConfig =>
        Except.ok
          { config := config
            tokenRetrieved := Chan.make 1
            state := d.uuidV4
            kubeConfig := kubeConfig }

/-- The confirmation page `httpContent`. -/
def httpContent : GoString :=
  gostr ("\n<html>\n    <body>\n        Token retrieved successfully.\n" ++
    "        This tab will close soon.\n\n        <script>\n" ++
    "            setTimeout(function() \x7b\n                window.close();\n" ++
    "            \x7d, 2000);\n        </script>\n    </body>\n</html>\n")

/-- Constant `http.StatusFound`. -/
def StatusFound : Nat := 302
/-- Constant `http.StatusNoContent`. -/
def StatusNoContent : Nat := 204
/-- Constant `http.StatusOK`. -/
def StatusOK : Nat := 200

/-- An `http.ResponseWriter` as the handler sees it: the headers set, the status
once the header has been written, the body written so far. -/
structure ResponseWriter where
  header : List (GoString × GoString)
  status : Option Nat
  body : GoString
deriving DecidableEq, Repr

/-- The response writer net/http hands to a handler. -/
def ResponseWriter.fresh : ResponseWriter := { header := [], status := none, body := [] }

/-- Method `WriteHeader`: the first status written stands. -/
def ResponseWriter.WriteHeader (w : ResponseWriter) (code : Nat) : ResponseWriter :=
  match w.status with
  | none => { w with status := some code }
  | some _ => w

/-- Function `io.WriteString(w, s)`: a write before any `WriteHeader` writes
status 200 first. -/
def ResponseWriter.WriteString (w : ResponseWriter) (s : GoString) : ResponseWriter :=
  { (w.WriteHeader StatusOK) with body := w.body ++ s }

/-- The part of an `http.Request` that `http.Redirect` reads: the method and
`URL.Path`. -/
structure RequestLine where
  Method : GoString
  Path : GoString
deriving DecidableEq, Repr

/-- Method `Header.Set`: the values of the key are replaced by this one. -/
def headerSet (h : List (GoString × GoString)) (key value : GoString) : List (GoString × GoString) :=
  h.filter (fun x => x.1 ≠ key) ++ [(key, value)]

/-- Method `Header.Get`: the first value of the key, or the empty string. -/
def headerGet (h : List (GoString × GoString)) (key : GoString) : GoString :=
  match h.find? (fun x => x.1 = key) with
  | some x => x.2
  | none => []

/-- The first part of `http.Redirect`: the URL it redirects to. A URL that
`url.Parse` reads without error, with neither scheme nor host, is made absolute
against the request path: put behind the directory of the request path unless
it starts with `/`, cleaned by `path.Clean` up to its query, with a trailing
slash kept. Every other URL is left as it is. -/
def redirectTarget (lib : GoLib) (r : RequestLine) (url : GoString) : GoString :=
  match getScheme (cut bHash url).1 with
  | some ([], _) =>
    if lib.parsesRelative url then
      let oldpath := if r.Path = [] then gostr "/" else r.Path
      let url1 := if url = [] ∨ url.head? ≠ some 47 then (pathSplit oldpath).1 ++ url else url
      let path := (cut bQuestion url1).1
      let query := if bQuestion ∈ url1 then bQuestion :: (cut bQuestion url1).2 else []
      let cleaned := pathClean path
      (if path.getLast? = some 47 ∧ cleaned.getLast? ≠ some 47 then cleaned ++ [47] else cleaned) ++ query
    else url
  | _ => url

/-- Function `http.Redirect(w, r, url, code)`: the `Location` header is set to
the target with its non-ASCII bytes escaped; unless a `Content-Type` was set
before, a GET or HEAD gets the HTML content type and a GET gets, after the
header is written with the code, the short HTML note as body. -/
def ResponseWriter.Redirect (lib : GoLib) (w : ResponseWriter) (r : RequestLine) (url : GoString)
    (code : Nat) : ResponseWriter :=
  let target := redirectTarget lib r url
  let hadCT := w.header.any (fun x => x.1 = gostr "Content-Type")
  let w1 : ResponseWriter :=
    { w with header := headerSet w.header (gostr "Location") (hexEscapeNonASCII target) }
  let w2 : ResponseWriter :=
    if ¬ hadCT ∧ (r.Method = gostr "GET" ∨ r.Method = gostr "HEAD") then
      { w1 with header := headerSet w1.header (gostr "Content-Type") (gostr "text/html; charset=utf-8") }
    else w1
  let w3 := w2.WriteHeader code
  if ¬ hadCT ∧ r.Method = gostr "GET" then
    w3.WriteString
      (gostr "<a href=\"" ++ htmlEscape target ++ gostr "\">" ++ StatusText code ++ gostr "</a>.\n" ++
        gostr "\n")
  else w3

/-- The status the client receives: the one written, or 200 when the handler
returned without writing any. -/
def ResponseWriter.sentStatus (w : ResponseWriter) : Nat := w.status.getD StatusOK

/-- An `http.Request`, the part the handlers read. -/
structure Request where
  RawQuery : GoString
deriving DecidableEq, Repr

/-- Method `r.URL.Query()`. -/
def Request.Query (r : Request) : Values := ParseQuery r.RawQuery

/-- The process state the handlers and `Orchestrate` share: the `Konfigurator`
and the effects performed so far, oldest first. -/
structure Proc where
  k : Konfigurator
  trace : List Effect

/-- What a handler run leaves behind: the process state, the response writer,
and whether the handler returned (`false`: its goroutine is parked on the
channel send). -/
structure Handled where
  proc : Proc
  w : ResponseWriter
  returned : Bool

/-- Method `Konfigurator.rootHandler`. The nonce is the one generated for this
call. -/
def Konfigurator.rootHandler (p : Proc) (nonce : GoString) (w : ResponseWriter) (r : RequestLine) :
    Handled :=
  { proc :=
      { p with
        trace := p.trace ++ [Effect.redirect (p.k.config.AuthCodeURLFresh nonce p.k.state) StatusFound] }
    w := w.Redirect p.k.config.lib r (p.k.config.AuthCodeURLFresh nonce p.k.state) StatusFound
    returned := true }

/-- Method `Konfigurator.noContentHandler`. -/
def Konfigurator.noContentHandler (p : Proc) (w : ResponseWriter) (_r : Request) : Handled :=
  { proc := { p with trace := p.trace ++ [Effect.writeHeader StatusNoContent] }
    w := w.WriteHeader StatusNoContent
    returned := true }

/-- Method `Konfigurator.callbackHandler`. -/
def Konfigurator.callbackHandler (p : Proc) (w : ResponseWriter) (r : Request) : Handled :=
  if r.Query.Get (gostr "state") ≠ p.k.state then
    { proc :=
        { p with
          trace := p.trace ++
            [Effect.log (gostr "URL State did not match: expected " ++ p.k.state ++ gostr ", got " ++
              r.Query.Get (gostr "state"))] }
      w := w
      returned := true }
  else
    match p.k.config.GetToken p.trace (r.Query.Get (gostr "code")) with
    | (_, some err, es) =>
      { proc := { p with trace := p.trace ++ es ++ [Effect.log (gostr "Failed extracting token: " ++ err)] }
        w := w
        returned := true }
    | (token, none, es) =>
      { proc :=
          { k :=
              { p.k with
                kubeConfig := p.k.kubeConfig.Generate token
                tokenRetrieved := (p.k.tokenRetrieved.send 1).1 }
            trace := p.trace ++ es ++
              [Effect.generate token, Effect.write httpContent, Effect.send 1] }
        w := w.WriteString httpContent
        returned := (p.k.tokenRetrieved.send 1).2 }

/-- The three handlers registered on the default mux. -/
inductive Route where
  | root
  | noContent
  | callback
deriving DecidableEq, Repr

/-- The `http.Server` built by `startHTTPServer`, together with the patterns
registered on `http.DefaultServeMux`, in registration order. -/
structure Server where
  Addr : GoString
  mux : List (GoString × Route)
deriving DecidableEq, Repr

/-- Function `http.HandleFunc` on the default mux: `none` stands for its panic,
on an empty pattern, on a pattern registered already, and on whatever else the
library refuses. -/
def HandleFunc (lib : GoLib) (mux : List (GoString × Route)) (pattern : GoString) (route : Route) :
    Option (List (GoString × Route)) :=
  if pattern = [] then none
  else if mux.any (fun x => x.1 = pattern) then none
  else if lib.refusesPattern (mux.map (fun x => x.1)) pattern then none
  else some (mux ++ [(pattern, route)])

/-- Method `Konfigurator.startHTTPServer`, entered with an empty default mux:
the server it returns and the process state it leaves. No server (`none`)
stands for the panic of a `http.HandleFunc`; the registrations made before it
are in the trace. -/
def Konfigurator.startHTTPServer (p : Proc) : Option Server × Proc :=
  match HandleFunc p.k.config.lib [] (gostr "/") Route.root with
  | none => (none, p)
  | some m1 =>
    match HandleFunc p.k.config.lib m1 (gostr "/favicon.ico") Route.noContent with
    | none => (none, { p with trace := p.trace ++ [Effect.handle (gostr "/")] })
    | some m2 =>
      match HandleFunc p.k.config.lib m2 p.k.config.localRedirectEndpoint Route.callback with
      | none =>
        (none,
         { p with
           trace := p.trace ++ [Effect.handle (gostr "/"), Effect.handle (gostr "/favicon.ico")] })
      | some m3 =>
        (some { Addr := p.k.config.localURL, mux := m3 },
         { p with
           trace := p.trace ++
             [Effect.handle (gostr "/"), Effect.handle (gostr "/favicon.ico"),
              Effect.handle p.k.config.localRedirectEndpoint, Effect.listen p.k.config.localURL] })

/-- Where the goroutine running `Orchestrate` stands. -/
inductive Pc where
  /-- Before `startHTTPServer`. -/
  | start
  /-- The server is started; before the browser is opened. -/
  | serving
  /-- At the receive `<-k.tokenRetrieved`. -/
  | waiting
  /-- A value has been received; before `server.Shutdown`. -/
  | received
  /-- Method `Orchestrate` has returned this error (`none`: nil). -/
  | returned (err : Option GoError)
  /-- The process has died in the panic of `startHTTPServer`. -/
  | panicked
deriving DecidableEq, Repr

/-- The running program: the shared process state, the position of
`Orchestrate`, and the server once it is started. -/
structure Sys where
  proc : Proc
  pc : Pc
  server : Option Server

/-- The program as `Orchestrate` is entered on a `Konfigurator`. -/
def Sys.init (k : Konfigurator) : Sys :=
  { proc := { k := k, trace := [] }, pc := Pc.start, server := none }

/-- Method `Konfigurator.Orchestrate`, one statement at a time. The source
calls `k.config.openBrowser()`; the generator given has `OpenBrowser`, which is
what runs here. The receive makes no progress while the channel is empty.
`shutdownResult` is what `server.Shutdown` returns within its five seconds, and
`Orchestrate` returns it. -/
def Konfigurator.Orchestrate (s : Sys) (shutdownResult : Option GoError) : Sys :=
  match s.pc with
  | Pc.start =>
    match (Konfigurator.startHTTPServer s.proc).1 with
    | some server =>
      { proc := (Konfigurator.startHTTPServer s.proc).2, pc := Pc.serving, server := some server }
    | none => { proc := (Konfigurator.startHTTPServer s.proc).2, pc := Pc.panicked, server := none }
  | Pc.serving =>
    { s with
      proc := { s.proc with trace := s.proc.trace ++ s.proc.k.config.OpenBrowser }
      pc := Pc.waiting }
  | Pc.waiting =>
    match s.proc.k.tokenRetrieved.recv with
    | none => s
    | some (v, c) =>
      { s with
        proc := { k := { s.proc.k with tokenRetrieved := c }, trace := s.proc.trace ++ [Effect.recv v] }
        pc := Pc.received }
  | Pc.received =>
    { s with
      proc := { s.proc with trace := s.proc.trace ++ [Effect.shutdown] }
      pc := Pc.returned shutdownResult }
  | Pc.returned _ => s
  | Pc.panicked => s

/-- What the scheduler may run next: the next statement of `Orchestrate`, or a
handler for a request that has arrived at one of the three routes. -/
inductive Action where
  | orchestrate (shutdownResult : Option GoError)
  | root (nonce : GoString) (r : RequestLine)
  | favicon (r : Request)
  | callback (r : Request)
deriving DecidableEq, Repr

/-- Requests are served from the start of the server until `Shutdown`. -/
def Sys.listening (s : Sys) : Bool :=
  match s.pc with
  | Pc.serving => true
  | Pc.waiting => true
  | Pc.received => true
  | _ => false

/-- One scheduler step. -/
def step (s : Sys) : Action → Sys
  | Action.orchestrate res => Konfigurator.Orchestrate s res
  | Action.root nonce r =>
    if s.listening then { s with proc := (Konfigurator.rootHandler s.proc nonce ResponseWriter.fresh r).proc }
    else s
  | Action.favicon r =>
    if s.listening then { s with proc := (Konfigurator.noContentHandler s.proc ResponseWriter.fresh r).proc }
    else s
  | Action.callback r =>
    if s.listening then { s with proc := (Konfigurator.callbackHandler s.proc ResponseWriter.fresh r).proc }
    else s

/-- The program after a schedule. -/
def run (s : Sys) (acts : List Action) : Sys := acts.foldl step s

/-- A callback request that passes both checks of `callbackHandler` in this
process state: its `state` is the stored one and `GetToken` returns no error
for its `code`. -/
def succeedsAt (p : Proc) (r : Request) : Prop :=
  r.Query.Get (gostr "state") = p.k.state ∧
    (p.k.config.GetToken p.trace (r.Query.Get (gostr "code"))).2.1 = none

/-! ## A concrete session -/

/-- A JSON token response carrying this `id_token`. -/
def tokenWith (idToken : GoString) : Token :=
  { raw := Raw.json [(gostr "id_token", Iface.str idToken)] }

/-- Library behaviour for the concrete session; none of the three is consulted
with an answer other than the one Go gives on the inputs used below (the URLs
there have a scheme, the patterns are `/`, `/favicon.ico` and `/callback`, and no
form value has exactly one `.`). -/
def demoLib : GoLib :=
  { parsesFloat := fun _ => false
    parsesRelative := fun _ => false
    refusesPattern := fun _ _ => false }

/-- A generator for a provider that accepts the codes `c1` and `c2` and whose
browser launcher succeeds. -/
def demoGenerator : OidcGenerator :=
  { config :=
      { ClientID := gostr "kube"
        RedirectURL := gostr "http://localhost:8000/callback"
        Endpoint := { AuthURL := gostr "https://idp.test/auth", TokenURL := gostr "https://idp.test/token" } }
    localURL := gostr "localhost:8000"
    localRedirectEndpoint := gostr "/callback"
    Run := fun _ => none
    Exchange := fun _ code =>
      if code = gostr "c1" then Except.ok (tokenWith (gostr "t1"))
      else if code = gostr "c2" then Except.ok (tokenWith (gostr "t2"))
      else Except.error (gostr "invalid_grant")
    lib := demoLib }

/-- A `Konfigurator` as `NewKonfigurator` returns it, with state `abc123`. -/
def demoKonfigurator : Konfigurator :=
  { config := demoGenerator
    tokenRetrieved := Chan.make 1
    state := gostr "abc123"
    kubeConfig := { ca := gostr "ca", url := gostr "https://k8s.test", namespace_ := gostr "default", generated := [] } }

/-- The process state before any effect. -/
def demoProc : Proc := { k := demoKonfigurator, trace := [] }

/-- Collaborators for which the client is built and discovery succeeds. -/
def demoDeps : OidcDeps :=
  { getenv := fun _ => []
    configureTLS := fun _ _ => none
    newProvider := fun _ =>
      Except.ok { AuthURL := gostr "https://idp.test/auth", TokenURL := gostr "https://idp.test/token" }
    openRun := fun _ => none
    exchange := demoGenerator.Exchange
    lib := demoLib }

/-- The two accepted callback requests of the concrete session. -/
def demoCallback1 : Request := { RawQuery := gostr "state=abc123&code=c1" }
/-- The second accepted callback request. -/
def demoCallback2 : Request := { RawQuery := gostr "state=abc123&code=c2" }

/-- A GET request for the root route. -/
def demoRootRequest : RequestLine := { Method := gostr "GET", Path := gostr "/" }

/-- A generator whose provider answers every code with a form-encoded token
response that has no `id_token`. -/
def formGenerator : OidcGenerator :=
  { demoGenerator with
    Exchange := fun _ _ =>
      Except.ok
        { raw := Raw.form [(gostr "access_token", gostr "abc"), (gostr "token_type", gostr "bearer")] } }

/-- A generator whose authorization endpoint holds the two bytes of `é`. -/
def accentGenerator : OidcGenerator :=
  { demoGenerator with
    config :=
      { demoGenerator.config with
        Endpoint :=
          { AuthURL := gostr "https://idp.test/caf" ++ [195, 169]
            TokenURL := gostr "https://idp.test/token" } } }

/-- The process state of a `Konfigurator` holding that generator. -/
def accentProc : Proc := { k := { demoKonfigurator with config := accentGenerator }, trace := [] }

/-- A generator whose authorization endpoint has no scheme, with the answer
`url.Parse` gives for the URLs built from it: no error, no host. -/
def schemelessGenerator : OidcGenerator :=
  { demoGenerator with
    config :=
      { demoGenerator.config with
        Endpoint := { AuthURL := gostr "idp.test/auth", TokenURL := gostr "https://idp.test/token" } }
    lib := { demoLib with parsesRelative := fun _ => true } }

/-- The process state of a `Konfigurator` holding that generator. -/
def schemelessProc : Proc :=
  { k := { demoKonfigurator with config := schemelessGenerator }, trace := [] }

/-- A generator whose callback path is the root pattern. -/
def rootEndpointGenerator : OidcGenerator :=
  { demoGenerator with localRedirectEndpoint := gostr "/" }

/-- A generator whose authorization endpoint carries a query of its own. -/
def queryEndpointGenerator : OidcGenerator :=
  { demoGenerator with
    config :=
      { demoGenerator.config with
        Endpoint := { AuthURL := gostr "https://idp.test/auth?p=1", TokenURL := gostr "https://idp.test/token" } } }

/-! ## Order in a trace -/

/-- Every element of the trace with property `P` has an element related to it
by `R` somewhere before it. -/
def Guarded (P : Effect → Prop) (R : Effect → Effect → Prop) (tr : List Effect) : Prop :=
  ∀ pre post x, tr = pre ++ x :: post → P x → ∃ y ∈ pre, R y x

/-! ## The callback handler -/

open Konfigurator

theorem exchanged_append (a b : List Effect) : exchanged (a ++ b) = exchanged a ++ exchanged b := by
  induction a with
  | nil => rfl
  | cons e es ih => cases e <;> simp [exchanged, ih]

theorem getToken_effects (o : OidcGenerator) (tr : List Effect) (code : GoString) :
    (o.GetToken tr code).2.2 = [Effect.exchange code] := by
  unfold OidcGenerator.GetToken
  split
  · rfl
  · split <;> rfl

theorem callbackHandler_mismatch (p : Proc) (w : ResponseWriter) (r : Request)
    (h : r.Query.Get (gostr "state") ≠ p.k.state) :
    callbackHandler p w r =
      { proc :=
          { p with
            trace := p.trace ++
              [Effect.log (gostr "URL State did not match: expected " ++ p.k.state ++ gostr ", got " ++
                r.Query.Get (gostr "state"))] }
        w := w
        returned := true } := by
  unfold callbackHandler
  rw [if_pos h]

theorem callbackHandler_ok (p : Proc) (w : ResponseWriter) (r : Request) (t : GoString)
    (es : List Effect) (hstate : r.Query.Get (gostr "state") = p.k.state)
    (htok : p.k.config.GetToken p.trace (r.Query.Get (gostr "code")) = (t, none, es)) :
    callbackHandler p w r =
      { proc :=
          { k :=
              { p.k with
                kubeConfig := p.k.kubeConfig.Generate t
                tokenRetrieved := (p.k.tokenRetrieved.send 1).1 }
            trace := p.trace ++
              [Effect.exchange (r.Query.Get (gostr "code")), Effect.generate t,
               Effect.write httpContent, Effect.send 1] }
        w := w.WriteString httpContent
        returned := (p.k.tokenRetrieved.send 1).2 } := by
  have hes := getToken_effects p.k.config p.trace (r.Query.Get (gostr "code"))
  rw [htok] at hes
  simp only at hes
  subst hes
  unfold callbackHandler
  rw [if_neg (not_not.mpr hstate), htok]
  simp

theorem callbackHandler_failed (p : Proc) (w : ResponseWriter) (r : Request) (tok : GoString)
    (err : GoError) (es : List Effect) (hstate : r.Query.Get (gostr "state") = p.k.state)
    (htok : p.k.config.GetToken p.trace (r.Query.Get (gostr "code")) = (tok, some err, es)) :
    callbackHandler p w r =
      { proc :=
          { p with
            trace := p.trace ++
              [Effect.exchange (r.Query.Get (gostr "code")),
               Effect.log (gostr "Failed extracting token: " ++ err)] }
        w := w
        returned := true } := by
  have hes := getToken_effects p.k.config p.trace (r.Query.Get (gostr "code"))
  rw [htok] at hes
  simp only at hes
  subst hes
  unfold callbackHandler
  rw [if_neg (not_not.mpr hstate), htok]
  simp

theorem send_room (c : Chan) (v : Int) (h : c.buf.length < c.cap) :
    c.send v = ({ c with buf := c.buf ++ [v] }, true) := by
  unfold Chan.send
  rw [if_pos h]

theorem send_full (c : Chan) (v : Int) (h : c.cap ≤ c.buf.length) :
    c.send v = ({ c with sendq := c.sendq ++ [v] }, false) := by
  unfold Chan.send
  rw [if_neg (by omega)]

/-- C1: a callback whose `state` parameter differs from the stored state leaves
the response writer untouched, leaves the `Konfigurator` (channel and
`KubeConfig` included) as it was, returns, and performs one effect only, the
log line: no exchange, no `Generate`, no write, no send. -/
theorem callbackHandler_rejects_foreign_state (p : Proc) (w : ResponseWriter) (r : Request)
    (h : r.Query.Get (gostr "state") ≠ p.k.state) :
    (callbackHandler p w r).w = w ∧
    (callbackHandler p w r).proc.k = p.k ∧
    (callbackHandler p w r).returned = true ∧
    (callbackHandler p w r).proc.trace = p.trace ++
      [Effect.log (gostr "URL State did not match: expected " ++ p.k.state ++ gostr ", got " ++
        r.Query.Get (gostr "state"))] ∧
    exchanged (callbackHandler p w r).proc.trace = exchanged p.trace := by
  rw [callbackHandler_mismatch p w r h]
  simp [exchanged_append, exchanged]

set_option maxRecDepth 100000 in
theorem callbackHandler_rejects_foreign_state_witness :
    (Request.mk (gostr "state=evil&code=c1")).Query.Get (gostr "state") ≠ demoProc.k.state ∧
    (callbackHandler demoProc ResponseWriter.fresh (Request.mk (gostr "state=evil&code=c1"))).w =
      ResponseWriter.fresh :=
  ⟨by decide,
   (callbackHandler_rejects_foreign_state demoProc ResponseWriter.fresh
     (Request.mk (gostr "state=evil&code=c1")) (by decide)).1⟩

/-- C2: a callback whose `state` is the stored one and for whose `code`
`GetToken` returns token `t` and no error performs, in this order, the
exchange, `Generate t`, the write of `httpContent` and one send of 1 on
`tokenRetrieved`; the response has body `httpContent` and status 200; and when
the channel has room the value is in its buffer and the handler returns. -/
theorem callbackHandler_accepts (p : Proc) (r : Request) (t : GoString) (es : List Effect)
    (hstate : r.Query.Get (gostr "state") = p.k.state)
    (htok : p.k.config.GetToken p.trace (r.Query.Get (gostr "code")) = (t, none, es)) :
    (callbackHandler p ResponseWriter.fresh r).proc.trace = p.trace ++
      [Effect.exchange (r.Query.Get (gostr "code")), Effect.generate t,
       Effect.write httpContent, Effect.send 1] ∧
    (callbackHandler p ResponseWriter.fresh r).proc.k.kubeConfig.generated =
      p.k.kubeConfig.generated ++ [t] ∧
    (callbackHandler p ResponseWriter.fresh r).w.body = httpContent ∧
    (callbackHandler p ResponseWriter.fresh r).w.status = some StatusOK ∧
    (callbackHandler p ResponseWriter.fresh r).proc.k.tokenRetrieved = (p.k.tokenRetrieved.send 1).1 ∧
    (p.k.tokenRetrieved.buf.length < p.k.tokenRetrieved.cap →
      (callbackHandler p ResponseWriter.fresh r).returned = true ∧
      (callbackHandler p ResponseWriter.fresh r).proc.k.tokenRetrieved.buf =
        p.k.tokenRetrieved.buf ++ [1]) := by
  rw [callbackHandler_ok p ResponseWriter.fresh r t es hstate htok]
  refine ⟨rfl, rfl, rfl, rfl, rfl, ?_⟩
  intro hroom
  simp [send_room _ _ hroom]

set_option maxRecDepth 100000 in
theorem callbackHandler_accepts_witness :
    (Request.mk (gostr "state=abc123&code=c1")).Query.Get (gostr "state") = demoProc.k.state ∧
    (callbackHandler demoProc ResponseWriter.fresh
      (Request.mk (gostr "state=abc123&code=c1"))).proc.k.kubeConfig.generated = [] ++ [gostr "t1"] :=
  ⟨by decide,
   (callbackHandler_accepts demoProc (Request.mk (gostr "state=abc123&code=c1")) (gostr "t1")
     [Effect.exchange (gostr "c1")] (by decide) (by decide)).2.1⟩

/-- C5: a callback whose `state` matches but for whose `code` `GetToken` returns
an error leaves the response writer untouched, leaves the `Konfigurator` as it
was, returns, and performs the exchange and the log line only; and a later
callback with a matching `state` and an accepted `code` then does what it would
have done without the failed one: `Generate` with its token, the confirmation
page with status 200, and the send on the channel as it stood. -/
theorem callbackHandler_exchange_failure (p : Proc) (w : ResponseWriter) (r : Request)
    (tok : GoString) (err : GoError) (es : List Effect)
    (hstate : r.Query.Get (gostr "state") = p.k.state)
    (htok : p.k.config.GetToken p.trace (r.Query.Get (gostr "code")) = (tok, some err, es)) :
    (callbackHandler p w r).w = w ∧
    (callbackHandler p w r).proc.k = p.k ∧
    (callbackHandler p w r).returned = true ∧
    (callbackHandler p w r).proc.trace = p.trace ++
      [Effect.exchange (r.Query.Get (gostr "code")),
       Effect.log (gostr "Failed extracting token: " ++ err)] ∧
    ∀ (r2 : Request) (t2 : GoString) (es2 : List Effect),
      r2.Query.Get (gostr "state") = p.k.state →
      p.k.config.GetToken (callbackHandler p w r).proc.trace (r2.Query.Get (gostr "code")) =
        (t2, none, es2) →
      (callbackHandler (callbackHandler p w r).proc ResponseWriter.fresh r2).proc.k.kubeConfig =
        p.k.kubeConfig.Generate t2 ∧
      (callbackHandler (callbackHandler p w r).proc ResponseWriter.fresh r2).w.body = httpContent ∧
      (callbackHandler (callbackHandler p w r).proc ResponseWriter.fresh r2).w.status = some StatusOK ∧
      (callbackHandler (callbackHandler p w r).proc ResponseWriter.fresh r2).proc.k.tokenRetrieved =
        (p.k.tokenRetrieved.send 1).1 ∧
      (callbackHandler (callbackHandler p w r).proc ResponseWriter.fresh r2).returned =
        (p.k.tokenRetrieved.send 1).2 := by
  have hfail := callbackHandler_failed p w r tok err es hstate htok
  have hk : (callbackHandler p w r).proc.k = p.k := by rw [hfail]
  refine ⟨by rw [hfail], hk, by rw [hfail], by rw [hfail], ?_⟩
  intro r2 t2 es2 hstate2 htok2
  rw [callbackHandler_ok (callbackHandler p w r).proc ResponseWriter.fresh r2 t2 es2
    (by rw [hk]; exact hstate2) (by rw [hk]; exact htok2), hk]
  exact ⟨rfl, rfl, rfl, rfl, rfl⟩

set_option maxRecDepth 100000 in
theorem callbackHandler_exchange_failure_witness :
    (Request.mk (gostr "state=abc123&code=stale")).Query.Get (gostr "state") = demoProc.k.state ∧
    (callbackHandler
      (callbackHandler demoProc ResponseWriter.fresh (Request.mk (gostr "state=abc123&code=stale"))).proc
      ResponseWriter.fresh (Request.mk (gostr "state=abc123&code=c2"))).proc.k.kubeConfig =
      demoProc.k.kubeConfig.Generate (gostr "t2") :=
  ⟨by decide,
   ((callbackHandler_exchange_failure demoProc ResponseWriter.fresh
      (Request.mk (gostr "state=abc123&code=stale")) [] (gostr "invalid_grant")
      [Effect.exchange (gostr "stale")] (by decide) (by decide)).2.2.2.2
      (Request.mk (gostr "state=abc123&code=c2")) (gostr "t2") [Effect.exchange (gostr "c2")]
      (by decide) (by decide)).1⟩

/-- C3 (as stated, refuted): on the concrete session the second accepted
callback does not return (its goroutine is parked on the send), `Generate` has
been called again with the second token, and once `Orchestrate` has received
the first value the second callback puts a second value into the channel. -/
theorem duplicate_callback_counterexample :
    (callbackHandler (callbackHandler demoProc ResponseWriter.fresh demoCallback1).proc
      ResponseWriter.fresh demoCallback2).returned = false ∧
    (callbackHandler demoProc ResponseWriter.fresh demoCallback1).proc.k.kubeConfig.generated =
      [gostr "t1"] ∧
    (callbackHandler (callbackHandler demoProc ResponseWriter.fresh demoCallback1).proc
      ResponseWriter.fresh demoCallback2).proc.k.kubeConfig.generated = [gostr "t1", gostr "t2"] ∧
    (run (Sys.init demoKonfigurator)
      [Action.orchestrate none, Action.orchestrate none, Action.callback demoCallback1,
       Action.orchestrate none]).proc.k.tokenRetrieved.buf = [] ∧
    (run (Sys.init demoKonfigurator)
      [Action.orchestrate none, Action.orchestrate none, Action.callback demoCallback1,
       Action.orchestrate none, Action.callback demoCallback2]).proc.k.tokenRetrieved.buf = [1] := by
  refine ⟨?_, ?_, ?_, ?_, ?_⟩ <;> decide

/-- C3 (amended): the channel made by `NewKonfigurator` has capacity 1 and is
empty; every accepted callback, whatever came before it, calls `Generate` with
its own token and reaches the send; the send completes and puts a value into the
buffer when the buffer has room, and parks the handler, leaving the buffer as it
was, when the buffer is full. -/
theorem callback_fires_every_time (p : Proc) (r : Request) (t : GoString) (es : List Effect)
    (hstate : r.Query.Get (gostr "state") = p.k.state)
    (htok : p.k.config.GetToken p.trace (r.Query.Get (gostr "code")) = (t, none, es)) :
    (∀ (d : KonfDeps) (a1 a2 a3 a4 a5 a6 a7 a8 : GoString) (k : Konfigurator),
      NewKonfigurator d a1 a2 a3 a4 a5 a6 a7 a8 = Except.ok k → k.tokenRetrieved = Chan.make 1) ∧
    (callbackHandler p ResponseWriter.fresh r).proc.k.kubeConfig.generated =
      p.k.kubeConfig.generated ++ [t] ∧
    (p.k.tokenRetrieved.buf.length < p.k.tokenRetrieved.cap →
      (callbackHandler p ResponseWriter.fresh r).returned = true ∧
      (callbackHandler p ResponseWriter.fresh r).proc.k.tokenRetrieved =
        { p.k.tokenRetrieved with buf := p.k.tokenRetrieved.buf ++ [1] }) ∧
    (p.k.tokenRetrieved.cap ≤ p.k.tokenRetrieved.buf.length →
      (callbackHandler p ResponseWriter.fresh r).returned = false ∧
      (callbackHandler p ResponseWriter.fresh r).proc.k.tokenRetrieved =
        { p.k.tokenRetrieved with sendq := p.k.tokenRetrieved.sendq ++ [1] }) := by
  rw [callbackHandler_ok p ResponseWriter.fresh r t es hstate htok]
  refine ⟨?_, rfl, ?_, ?_⟩
  · intro d a1 a2 a3 a4 a5 a6 a7 a8 k hk
    unfold NewKonfigurator at hk
    split at hk
    · cases hk
    · split at hk
      · cases hk
      · split at hk
        · cases hk
        · cases hk
          rfl
  · intro hroom
    simp [send_room _ _ hroom]
  · intro hfull
    simp [send_full _ _ hfull]

set_option maxRecDepth 100000 in
theorem callback_fires_every_time_witness :
    demoCallback2.Query.Get (gostr "state") =
      (callbackHandler demoProc ResponseWriter.fresh demoCallback1).proc.k.state ∧
    (callbackHandler (callbackHandler demoProc ResponseWriter.fresh demoCallback1).proc
      ResponseWriter.fresh demoCallback2).proc.k.kubeConfig.generated =
      (callbackHandler demoProc ResponseWriter.fresh demoCallback1).proc.k.kubeConfig.generated ++
        [gostr "t2"] :=
  ⟨by decide,
   (callback_fires_every_time (callbackHandler demoProc ResponseWriter.fresh demoCallback1).proc
     demoCallback2 (gostr "t2") [Effect.exchange (gostr "c2")] (by decide) (by decide)).2.1⟩

/-! ## The generator -/

theorem Get_absent (v : Values) (key : GoString) (h : ∀ p ∈ v, p.1 ≠ key) : v.Get key = [] := by
  unfold Values.Get
  have hnone : v.find? (fun p => p.1 = key) = none := by
    rw [List.find?_eq_none]
    intro p hp
    simpa using h p hp
  rw [hnone]

theorem Extra_form_absent (lib : GoLib) (vals : Values) (key : GoString)
    (h : ∀ p ∈ vals, p.1 ≠ key) : Token.Extra lib { raw := Raw.form vals } key = Iface.str [] := by
  unfold Token.Extra
  simp only [Get_absent vals key h]
  rfl

theorem Extra_json_absent (lib : GoLib) (fields : List (GoString × Iface)) (key : GoString)
    (h : ∀ p ∈ fields, p.1 ≠ key) : Token.Extra lib { raw := Raw.json fields } key = Iface.nil := by
  unfold Token.Extra
  have hnone : fields.find? (fun p => p.1 = key) = none := by
    rw [List.find?_eq_none]
    intro p hp
    simpa using h p hp
  simp only [hnone]

/-- C6 (as stated, refuted): the provider of this generator answers with a
form-encoded token response that has no `id_token`; the exchange returns no
error, the field is absent, and yet `GetToken` returns a nil error, with the
empty token: `Token.Extra` gives the empty string for the absent key and the
assertion to string succeeds. -/
theorem GetToken_form_counterexample :
    formGenerator.Exchange (exchanged []) (gostr "c1") =
      Except.ok
        { raw := Raw.form [(gostr "access_token", gostr "abc"), (gostr "token_type", gostr "bearer")] } ∧
    (∀ p ∈ [(gostr "access_token", gostr "abc"), (gostr "token_type", gostr "bearer")],
      p.1 ≠ gostr "id_token") ∧
    formGenerator.GetToken [] (gostr "c1") = ([], none, [Effect.exchange (gostr "c1")]) := by
  refine ⟨rfl, by decide, ?_⟩
  unfold OidcGenerator.GetToken
  simp only [formGenerator]
  rw [Extra_form_absent _ _ _ (by decide)]

/-- C6 (amended): `GetToken` calls `config.Exchange` once and not again. When
that call returns an error, `GetToken` returns the empty token and that error.
When it returns a token decoded from a JSON response, `GetToken` returns an
error exactly when the field `id_token` is absent or is not a string, the
returned token is empty whenever there is an error, and otherwise the string
value of `id_token` is returned with a nil error. -/
theorem GetToken_outcomes (o : OidcGenerator) (tr : List Effect) (code : GoString) :
    (o.GetToken tr code).2.2 = [Effect.exchange code] ∧
    (∀ e, o.Exchange (exchanged tr) code = Except.error e →
      o.GetToken tr code = ([], some e, [Effect.exchange code])) ∧
    (∀ fields, o.Exchange (exchanged tr) code = Except.ok { raw := Raw.json fields } →
      ((o.GetToken tr code).2.1 ≠ none ↔
        ((∀ p ∈ fields, p.1 ≠ gostr "id_token") ∨
         ∃ p, fields.find? (fun p => p.1 = gostr "id_token") = some p ∧ ∀ s, p.2 ≠ Iface.str s)) ∧
      ((o.GetToken tr code).2.1 ≠ none → (o.GetToken tr code).1 = []) ∧
      (∀ p s, fields.find? (fun p => p.1 = gostr "id_token") = some p → p.2 = Iface.str s →
        o.GetToken tr code = (s, none, [Effect.exchange code]))) := by
  refine ⟨getToken_effects o tr code, ?_, ?_⟩
  · intro e he
    unfold OidcGenerator.GetToken
    rw [he]
  · intro fields hx
    cases hf : fields.find? (fun p => p.1 = gostr "id_token") with
    | none =>
      have habs : ∀ p ∈ fields, p.1 ≠ gostr "id_token" := by
        intro p hp
        have := List.find?_eq_none.mp hf p hp
        simpa using this
      have hget : o.GetToken tr code =
          ([], some (gostr "missing id_token from oauth2 token"), [Effect.exchange code]) := by
        unfold OidcGenerator.GetToken
        rw [hx]
        simp only [Extra_json_absent o.lib fields _ habs]
      rw [hget]
      refine ⟨?_, ?_, ?_⟩
      · simp only [ne_eq, reduceCtorEq, not_false_eq_true, true_iff]
        exact Or.inl habs
      · intro _; rfl
      · intro p s hp; cases hp
    | some q =>
      have hextra : Token.Extra o.lib { raw := Raw.json fields } (gostr "id_token") = q.2 := by
        unfold Token.Extra
        simp only [hf]
      have hmem : q ∈ fields ∧ q.1 = gostr "id_token" := by
        have h1 := List.mem_of_find?_eq_some hf
        have h2 := List.find?_some hf
        exact ⟨h1, by simpa using h2⟩
      cases hq : q.2 with
      | str t =>
        have hget : o.GetToken tr code = (t, none, [Effect.exchange code]) := by
          unfold OidcGenerator.GetToken
          rw [hx]
          simp only [hextra, hq]
        rw [hget]
        refine ⟨?_, ?_, ?_⟩
        · simp only [ne_eq, not_true_eq_false, false_iff, not_or, not_forall, not_exists, not_and]
          refine ⟨⟨q, hmem.1, by simpa using hmem.2⟩, ?_⟩
          intro p hp
          cases hp
          exact ⟨t, by simpa using hq⟩
        · intro h; exact absurd rfl h
        · intro p s hp hs
          cases hp
          rw [hq] at hs
          cases hs
          rfl
      | nil | int64 _ | float64 _ | bool _ | other =>
        have hget : o.GetToken tr code =
            ([], some (gostr "missing id_token from oauth2 token"), [Effect.exchange code]) := by
          unfold OidcGenerator.GetToken
          rw [hx]
          simp only [hextra, hq]
        rw [hget]
        refine ⟨?_, ?_, ?_⟩
        · simp only [ne_eq, reduceCtorEq, not_false_eq_true, true_iff]
          exact Or.inr ⟨q, rfl, by intro s; rw [hq]; simp⟩
        · intro _; rfl
        · intro p s hp hs
          cases hp
          rw [hq] at hs
          cases hs

set_option maxRecDepth 100000 in
theorem GetToken_outcomes_witness :
    demoGenerator.Exchange (exchanged []) (gostr "c1") =
      Except.ok { raw := Raw.json [(gostr "id_token", Iface.str (gostr "t1"))] } ∧
    demoGenerator.GetToken [] (gostr "c1") = (gostr "t1", none, [Effect.exchange (gostr "c1")]) :=
  ⟨rfl,
   ((GetToken_outcomes demoGenerator [] (gostr "c1")).2.2
      [(gostr "id_token", Iface.str (gostr "t1"))] rfl).2.2
      (gostr "id_token", Iface.str (gostr "t1")) (gostr "t1") (by decide) rfl⟩

/-- C8: `OpenBrowser` calls `Run` once, with `"http://" + localURL`, and does
nothing else, except that when `Run` returns an error, and only then, it writes
`"Go to the following url to authenticate: http://<localURL>/"` to `Stream`,
once. -/
theorem OpenBrowser_effects (o : OidcGenerator) :
    ∃ rest, o.OpenBrowser = Effect.run (gostr "http://" ++ o.localURL) :: rest ∧
      (o.Run (gostr "http://" ++ o.localURL) ≠ none ↔
        rest = [Effect.print
          (gostr "Go to the following url to authenticate: http://" ++ o.localURL ++ gostr "/")]) ∧
      (o.Run (gostr "http://" ++ o.localURL) = none ↔ rest = []) := by
  unfold OidcGenerator.OpenBrowser
  cases h : o.Run (gostr "http://" ++ o.localURL) with
  | none => exact ⟨[], rfl, by simp, by simp⟩
  | some e => exact ⟨_, rfl, by simp, by simp⟩

theorem HandleFunc_eq (lib : GoLib) (mux : List (GoString × Route)) (pattern : GoString)
    (route : Route) :
    HandleFunc lib mux pattern route =
      if pattern = [] ∨ mux.any (fun x => x.1 = pattern) = true ∨
          lib.refusesPattern (mux.map (fun x => x.1)) pattern = true then none
      else some (mux ++ [(pattern, route)]) := by
  unfold HandleFunc
  by_cases h1 : pattern = []
  · simp [h1]
  · by_cases h2 : mux.any (fun x => x.1 = pattern) = true
    · simp [h1, h2]
    · by_cases h3 : lib.refusesPattern (mux.map (fun x => x.1)) pattern = true
      · simp [h1, h2, h3]
      · simp [h1, h2, h3]

set_option maxRecDepth 100000 in
theorem startHTTPServer_eq (p : Proc) :
    Konfigurator.startHTTPServer p =
      if p.k.config.lib.refusesPattern [] (gostr "/") = true then (none, p)
      else if p.k.config.lib.refusesPattern [gostr "/"] (gostr "/favicon.ico") = true then
        (none, { p with trace := p.trace ++ [Effect.handle (gostr "/")] })
      else if p.k.config.localRedirectEndpoint = [] ∨ p.k.config.localRedirectEndpoint = gostr "/" ∨
          p.k.config.localRedirectEndpoint = gostr "/favicon.ico" ∨
          p.k.config.lib.refusesPattern [gostr "/", gostr "/favicon.ico"]
            p.k.config.localRedirectEndpoint = true then
        (none,
         { p with
           trace := p.trace ++ [Effect.handle (gostr "/"), Effect.handle (gostr "/favicon.ico")] })
      else
        (some
           { Addr := p.k.config.localURL
             mux := [(gostr "/", Route.root), (gostr "/favicon.ico", Route.noContent),
                     (p.k.config.localRedirectEndpoint, Route.callback)] },
         { p with
           trace := p.trace ++
             [Effect.handle (gostr "/"), Effect.handle (gostr "/favicon.ico"),
              Effect.handle p.k.config.localRedirectEndpoint, Effect.listen p.k.config.localURL] }) := by
  have hroot : gostr "/" ≠ ([] : GoString) := by decide
  have hfav : gostr "/favicon.ico" ≠ ([] : GoString) := by decide
  have hne : gostr "/" ≠ gostr "/favicon.ico" := by decide
  unfold Konfigurator.startHTTPServer
  simp only [HandleFunc_eq]
  by_cases h1 : p.k.config.lib.refusesPattern [] (gostr "/") = true
  · simp [h1, hroot]
  · by_cases h2 : p.k.config.lib.refusesPattern [gostr "/"] (gostr "/favicon.ico") = true
    · simp [h1, h2, hroot, hfav, hne]
    · by_cases h3 : p.k.config.localRedirectEndpoint = [] ∨
          p.k.config.localRedirectEndpoint = gostr "/" ∨
          p.k.config.localRedirectEndpoint = gostr "/favicon.ico" ∨
          p.k.config.lib.refusesPattern [gostr "/", gostr "/favicon.ico"]
            p.k.config.localRedirectEndpoint = true
      · rw [if_neg h1, if_neg h2, if_pos h3]
        simp [h1, h2, hroot, hfav, hne]
        rcases h3 with h | h | h | h
        · simp [h]
        · simp [h]
        · simp [h]
        · simp [h]
      · rw [if_neg h1, if_neg h2, if_neg h3]
        simp only [not_or] at h3
        obtain ⟨e1, e2, e3, e4⟩ := h3
        simp [h1, h2, hroot, hfav, hne, e1, Ne.symm e2, Ne.symm e3, e4]

/-- C10: when the client is built and provider discovery succeeds,
`NewOidcGenerator` returns a generator with `localURL = "localhost:" + localPort`
and `config.RedirectURL = "http://" + localURL + localRedirectEndpoint`; and for
a `Konfigurator` holding that generator, every server `startHTTPServer` returns
has `srv.Addr = localURL` and the callback handler registered under
`localRedirectEndpoint` and nowhere else, so the redirect URI is
`"http://" + srv.Addr +` the callback pattern. It returns no server, panicking
in `http.HandleFunc`, exactly when the endpoint is empty, `/` or `/favicon.ico`,
or the library refuses one of the three patterns for a reason of its own. -/
theorem NewOidcGenerator_redirect (d : OidcDeps) (hostURL clientID localPort ep : GoString)
    (endpoint : Endpoint)
    (hclient : d.configureTLS (d.getenv (gostr "MYAPP_CAFILE")) (d.getenv (gostr "MYAPP_CAPATH")) = none)
    (hprov : d.newProvider hostURL = Except.ok endpoint) :
    ∃ g, NewOidcGenerator d hostURL clientID localPort ep = Except.ok g ∧
      g.localURL = gostr "localhost:" ++ localPort ∧
      g.config.RedirectURL = gostr "http://" ++ g.localURL ++ ep ∧
      g.localRedirectEndpoint = ep ∧
      (∀ (p : Proc) (srv : Server), p.k.config = g →
        (Konfigurator.startHTTPServer p).1 = some srv →
        srv.Addr = g.localURL ∧
        srv.mux.filter (fun x => x.2 = Route.callback) = [(ep, Route.callback)] ∧
        g.config.RedirectURL = gostr "http://" ++ srv.Addr ++ ep) ∧
      (∀ p : Proc, p.k.config = g →
        ((Konfigurator.startHTTPServer p).1 = none ↔
          (d.lib.refusesPattern [] (gostr "/") = true ∨
           d.lib.refusesPattern [gostr "/"] (gostr "/favicon.ico") = true ∨
           ep = [] ∨ ep = gostr "/" ∨ ep = gostr "/favicon.ico" ∨
           d.lib.refusesPattern [gostr "/", gostr "/favicon.ico"] ep = true))) := by
  refine ⟨{ config :=
              { ClientID := clientID
                RedirectURL := gostr "http://" ++ (gostr "localhost:" ++ localPort) ++ ep
                Endpoint := endpoint }
            localURL := gostr "localhost:" ++ localPort
            localRedirectEndpoint := ep
            Run := d.openRun
            Exchange := d.exchange
            lib := d.lib }, ?_, rfl, rfl, rfl, ?_, ?_⟩
  · unfold NewOidcGenerator httpClient
    rw [hclient]
    simp only [hprov]
  · intro p srv hp hsrv
    rw [startHTTPServer_eq] at hsrv
    split at hsrv
    · simp at hsrv
    · split at hsrv
      · simp at hsrv
      · split at hsrv
        · simp at hsrv
        · simp only [Option.some.injEq] at hsrv
          subst hsrv
          simp [hp]
  · intro p hp
    rw [startHTTPServer_eq]
    simp only [hp]
    by_cases h1 : d.lib.refusesPattern [] (gostr "/") = true
    · simp [h1]
    · by_cases h2 : d.lib.refusesPattern [gostr "/"] (gostr "/favicon.ico") = true
      · simp [h1, h2]
      · by_cases h3 : ep = [] ∨ ep = gostr "/" ∨ ep = gostr "/favicon.ico" ∨
            d.lib.refusesPattern [gostr "/", gostr "/favicon.ico"] ep = true
        · rw [if_neg h1, if_neg h2, if_pos h3]
          simp only [true_iff]
          exact Or.inr (Or.inr h3)
        · rw [if_neg h1, if_neg h2, if_neg h3]
          simp only [reduceCtorEq, false_iff, not_or]
          simp only [not_or] at h3
          exact ⟨h1, h2, h3.1, h3.2.1, h3.2.2.1, h3.2.2.2⟩

set_option maxRecDepth 100000 in
theorem NewOidcGenerator_redirect_witness :
    demoDeps.newProvider (gostr "https://idp.test") =
      Except.ok { AuthURL := gostr "https://idp.test/auth", TokenURL := gostr "https://idp.test/token" } ∧
    ∃ g, NewOidcGenerator demoDeps (gostr "https://idp.test") (gostr "kube") (gostr "8000")
        (gostr "/callback") = Except.ok g ∧
      g.localURL = gostr "localhost:" ++ gostr "8000" :=
  ⟨rfl,
   (NewOidcGenerator_redirect demoDeps (gostr "https://idp.test") (gostr "kube") (gostr "8000")
      (gostr "/callback") _ rfl rfl).elim (fun g hg => ⟨g, hg.1, hg.2.1⟩)⟩

set_option maxRecDepth 100000 in
theorem startHTTPServer_demo :
    (Konfigurator.startHTTPServer demoProc).1 =
      some
        { Addr := gostr "localhost:8000"
          mux := [(gostr "/", Route.root), (gostr "/favicon.ico", Route.noContent),
                  (gostr "/callback", Route.callback)] } ∧
    (Konfigurator.startHTTPServer
      { k := { demoKonfigurator with config := rootEndpointGenerator }, trace := [] }).1 = none := by
  constructor <;> decide

/-! ## Orchestrate -/

theorem Guarded.nil (P : Effect → Prop) (R : Effect → Effect → Prop) : Guarded P R [] := by
  intro pre post x h
  simp at h

theorem Guarded.append {P : Effect → Prop} {R : Effect → Effect → Prop} {tr es : List Effect}
    (h : Guarded P R tr) (hes : ∀ x ∈ es, P x → ∃ y ∈ tr, R y x) : Guarded P R (tr ++ es) := by
  intro pre post x heq hP
  rcases List.append_eq_append_iff.mp heq with ⟨a, hpre, hes'⟩ | ⟨c, htr, hpost⟩
  · -- the element lies in `es`
    have hx : x ∈ es := by rw [hes']; simp
    obtain ⟨y, hy, hR⟩ := hes x hx hP
    exact ⟨y, by rw [hpre]; exact List.mem_append_left _ hy, hR⟩
  · cases c with
    | nil =>
      simp at hpost
      have hx : x ∈ es := by rw [← hpost]; simp
      obtain ⟨y, hy, hR⟩ := hes x hx hP
      simp at htr
      exact ⟨y, by rw [← htr]; exact hy, hR⟩
    | cons c cs =>
      simp at hpost
      obtain ⟨hc, _⟩ := hpost
      subst hc
      exact h pre cs x htr hP

theorem recv_some (c : Chan) (v : Int) (c2 : Chan) (h : c.recv = some (v, c2)) :
    v ∈ c.buf ∧ ∀ x ∈ c2.buf ++ c2.sendq, x ∈ c.buf ++ c.sendq := by
  unfold Chan.recv at h
  cases hb : c.buf with
  | nil => rw [hb] at h; simp at h
  | cons b bs =>
    rw [hb] at h
    cases hq : c.sendq with
    | nil =>
      rw [hq] at h
      simp at h
      obtain ⟨hv, hc⟩ := h
      subst hv hc
      simp [hq]
      intro x hx; exact Or.inr hx
    | cons q qs =>
      rw [hq] at h
      simp at h
      obtain ⟨hv, hc⟩ := h
      subst hv hc
      simp
      intro x hx
      rcases hx with hx | hx | hx
      · exact Or.inr (Or.inl hx)
      · exact Or.inr (Or.inr (Or.inl hx))
      · exact Or.inr (Or.inr (Or.inr hx))

theorem send_contents (c : Chan) (v : Int) :
    ∀ x ∈ (c.send v).1.buf ++ (c.send v).1.sendq, x ∈ c.buf ++ c.sendq ∨ x = v := by
  intro x hx
  unfold Chan.send at hx
  split at hx <;> simp at hx ⊢ <;> tauto

theorem step_orchestrate (s : Sys) (res : Option GoError) :
    step s (Action.orchestrate res) = Konfigurator.Orchestrate s res := rfl

theorem step_root (s : Sys) (nonce : GoString) (r : RequestLine) :
    step s (Action.root nonce r) =
      if s.listening then { s with proc := (rootHandler s.proc nonce ResponseWriter.fresh r).proc }
      else s := rfl

theorem step_favicon (s : Sys) (r : Request) :
    step s (Action.favicon r) =
      if s.listening then { s with proc := (noContentHandler s.proc ResponseWriter.fresh r).proc }
      else s := rfl

theorem step_callback (s : Sys) (r : Request) :
    step s (Action.callback r) =
      if s.listening then { s with proc := (callbackHandler s.proc ResponseWriter.fresh r).proc }
      else s := rfl

/-- A step that leaves channel and position alone and performs no channel or
shutdown effect. -/
theorem quiet_step (s s2 : Sys) (a : Action) (es : List Effect)
    (htr : s2.proc.trace = s.proc.trace ++ es) (hch : s2.proc.k.tokenRetrieved = s.proc.k.tokenRetrieved)
    (hpc : s2.pc = Pc.received → s.pc = Pc.received)
    (hq : ∀ e ∈ es, e ≠ Effect.shutdown ∧ (∀ v, e ≠ Effect.recv v) ∧ ∀ v, e ≠ Effect.send v) :
    ∃ es, s2.proc.trace = s.proc.trace ++ es ∧
      (Effect.shutdown ∈ es → s.pc = Pc.received) ∧
      (∀ v, Effect.recv v ∈ es → v ∈ s.proc.k.tokenRetrieved.buf) ∧
      (∀ v, Effect.send v ∈ es →
        ∃ r, a = Action.callback r ∧ s.listening = true ∧ succeedsAt s.proc r) ∧
      (s2.pc = Pc.received → s.pc = Pc.received ∨ ∃ v, Effect.recv v ∈ es) ∧
      (∀ x ∈ s2.proc.k.tokenRetrieved.buf ++ s2.proc.k.tokenRetrieved.sendq,
        x ∈ s.proc.k.tokenRetrieved.buf ++ s.proc.k.tokenRetrieved.sendq ∨ Effect.send x ∈ es) := by
  refine ⟨es, htr, ?_, ?_, ?_, ?_, ?_⟩
  · intro h; exact absurd rfl (hq _ h).1
  · intro v h; exact absurd rfl ((hq _ h).2.1 v)
  · intro v h; exact absurd rfl ((hq _ h).2.2 v)
  · intro h; exact Or.inl (hpc h)
  · intro x hx; rw [hch] at hx; exact Or.inl hx

theorem pc_cases (pc : Pc) :
    pc = Pc.start ∨ pc = Pc.serving ∨ pc = Pc.waiting ∨ pc = Pc.received ∨
      (∃ e, pc = Pc.returned e) ∨ pc = Pc.panicked := by
  cases pc <;> simp

theorem startHTTPServer_quiet (p : Proc) :
    ∃ es, (Konfigurator.startHTTPServer p).2.trace = p.trace ++ es ∧
      (Konfigurator.startHTTPServer p).2.k = p.k ∧
      ∀ e ∈ es, e ≠ Effect.shutdown ∧ (∀ v, e ≠ Effect.recv v) ∧ ∀ v, e ≠ Effect.send v := by
  rw [startHTTPServer_eq]
  split
  · exact ⟨[], by simp, rfl, by simp⟩
  · split
    · exact ⟨_, rfl, rfl, by simp⟩
    · split
      · exact ⟨_, rfl, rfl, by simp⟩
      · exact ⟨_, rfl, rfl, by simp⟩

theorem step_effects (s : Sys) (a : Action) :
    ∃ es, (step s a).proc.trace = s.proc.trace ++ es ∧
      (Effect.shutdown ∈ es → s.pc = Pc.received) ∧
      (∀ v, Effect.recv v ∈ es → v ∈ s.proc.k.tokenRetrieved.buf) ∧
      (∀ v, Effect.send v ∈ es →
        ∃ r, a = Action.callback r ∧ s.listening = true ∧ succeedsAt s.proc r) ∧
      ((step s a).pc = Pc.received → s.pc = Pc.received ∨ ∃ v, Effect.recv v ∈ es) ∧
      (∀ x ∈ (step s a).proc.k.tokenRetrieved.buf ++ (step s a).proc.k.tokenRetrieved.sendq,
        x ∈ s.proc.k.tokenRetrieved.buf ++ s.proc.k.tokenRetrieved.sendq ∨ Effect.send x ∈ es) := by
  cases a with
  | orchestrate res =>
    rcases pc_cases s.pc with hpc | hpc | hpc | hpc | ⟨e, hpc⟩ | hpc
    · obtain ⟨es, htr, hk, hq⟩ := startHTTPServer_quiet s.proc
      refine quiet_step s _ _ es ?_ ?_ ?_ hq
      · simp only [step, Konfigurator.Orchestrate, hpc]
        split <;> exact htr
      · simp only [step, Konfigurator.Orchestrate, hpc]
        split <;> simp only [hk]
      · simp only [step, Konfigurator.Orchestrate, hpc]
        split <;> simp
    · refine quiet_step s _ _ s.proc.k.config.OpenBrowser
        (by simp [step, Konfigurator.Orchestrate, hpc])
        (by simp [step, Konfigurator.Orchestrate, hpc])
        (by simp [step, Konfigurator.Orchestrate, hpc]) ?_
      unfold OidcGenerator.OpenBrowser
      split <;> simp
    · cases hr : s.proc.k.tokenRetrieved.recv with
      | none =>
        exact quiet_step s _ _ []
          (by simp [step, Konfigurator.Orchestrate, hpc, hr])
          (by simp [step, Konfigurator.Orchestrate, hpc, hr])
          (by simp [step, Konfigurator.Orchestrate, hpc, hr]) (by simp)
      | some vc =>
        obtain ⟨v, c⟩ := vc
        obtain ⟨hv, hc⟩ := recv_some _ _ _ hr
        have hstep : step s (Action.orchestrate res) =
            { s with
              proc := { k := { s.proc.k with tokenRetrieved := c }, trace := s.proc.trace ++ [Effect.recv v] }
              pc := Pc.received } := by
          simp [step, Konfigurator.Orchestrate, hpc, hr]
        rw [hstep]
        refine ⟨[Effect.recv v], rfl, ?_, ?_, ?_, ?_, ?_⟩
        · simp
        · intro v2 h2; simp at h2; subst h2; exact hv
        · simp
        · intro _; exact Or.inr ⟨v, by simp⟩
        · intro x hx; exact Or.inl (hc x hx)
    · have hstep : step s (Action.orchestrate res) =
          { s with
            proc := { s.proc with trace := s.proc.trace ++ [Effect.shutdown] }
            pc := Pc.returned res } := by
        simp [step, Konfigurator.Orchestrate, hpc]
      rw [hstep]
      refine ⟨[Effect.shutdown], rfl, ?_, ?_, ?_, ?_, ?_⟩
      · intro _; exact hpc
      · simp
      · simp
      · simp
      · intro x hx; exact Or.inl hx
    · exact quiet_step s _ _ []
        (by simp [step, Konfigurator.Orchestrate, hpc])
        (by simp [step, Konfigurator.Orchestrate, hpc])
        (by simp [step, Konfigurator.Orchestrate, hpc]) (by simp)
    · exact quiet_step s _ _ []
        (by simp [step, Konfigurator.Orchestrate, hpc])
        (by simp [step, Konfigurator.Orchestrate, hpc])
        (by simp [step, Konfigurator.Orchestrate, hpc]) (by simp)
  | root nonce r =>
    by_cases hl : s.listening = true
    · exact quiet_step s _ _
        [Effect.redirect (s.proc.k.config.AuthCodeURLFresh nonce s.proc.k.state) StatusFound]
        (by simp [step, hl, rootHandler]) (by simp [step, hl, rootHandler])
        (by simp [step, hl]) (by simp)
    · exact quiet_step s _ _ [] (by simp [step, hl]) (by simp [step, hl]) (by simp [step, hl]) (by simp)
  | favicon r =>
    by_cases hl : s.listening = true
    · exact quiet_step s _ _ [Effect.writeHeader StatusNoContent]
        (by simp [step, hl, noContentHandler]) (by simp [step, hl, noContentHandler])
        (by simp [step, hl]) (by simp)
    · exact quiet_step s _ _ [] (by simp [step, hl]) (by simp [step, hl]) (by simp [step, hl]) (by simp)
  | callback r =>
    by_cases hl : s.listening = true
    · by_cases hst : r.Query.Get (gostr "state") = s.proc.k.state
      · rcases hg : s.proc.k.config.GetToken s.proc.trace (r.Query.Get (gostr "code")) with
          ⟨t, err, es⟩
        cases err with
        | some e =>
          have hh := callbackHandler_failed s.proc ResponseWriter.fresh r t e es hst hg
          exact quiet_step s _ _
            [Effect.exchange (r.Query.Get (gostr "code")),
             Effect.log (gostr "Failed extracting token: " ++ e)]
            (by simp [step, hl, hh]) (by simp [step, hl, hh]) (by simp [step, hl]) (by simp)
        | none =>
          have hh := callbackHandler_ok s.proc ResponseWriter.fresh r t es hst hg
          have hstep : step s (Action.callback r) =
              { s with proc := (callbackHandler s.proc ResponseWriter.fresh r).proc } := by
            simp [step, hl]
          rw [hstep, hh]
          refine ⟨_, rfl, ?_, ?_, ?_, ?_, ?_⟩
          · simp
          · simp
          · intro v _
            exact ⟨r, rfl, hl, hst, by rw [hg]⟩
          · intro h; exact Or.inl h
          · intro x hx
            rcases send_contents s.proc.k.tokenRetrieved 1 x hx with h | h
            · exact Or.inl h
            · subst h; exact Or.inr (by simp)
      · have hh := callbackHandler_mismatch s.proc ResponseWriter.fresh r hst
        exact quiet_step s _ _
          [Effect.log (gostr "URL State did not match: expected " ++ s.proc.k.state ++ gostr ", got " ++
            r.Query.Get (gostr "state"))]
          (by simp [step, hl, hh]) (by simp [step, hl, hh]) (by simp [step, hl]) (by simp)
    · exact quiet_step s _ _ [] (by simp [step, hl]) (by simp [step, hl]) (by simp [step, hl]) (by simp)

theorem run_snoc (s : Sys) (acts : List Action) (a : Action) :
    run s (acts ++ [a]) = step (run s acts) a := by
  simp [run, List.foldl_append]

theorem run_invariant (k : Konfigurator) (hk : k.tokenRetrieved = Chan.make 1) (acts : List Action) :
    Guarded (fun x => x = Effect.shutdown) (fun y _ => ∃ v, y = Effect.recv v)
      (run (Sys.init k) acts).proc.trace ∧
    Guarded (fun x => ∃ v, x = Effect.recv v) (fun y x => ∃ v, y = Effect.send v ∧ x = Effect.recv v)
      (run (Sys.init k) acts).proc.trace ∧
    ((∃ v, Effect.send v ∈ (run (Sys.init k) acts).proc.trace) →
      ∃ acts1 r acts2, acts = acts1 ++ Action.callback r :: acts2 ∧
        (run (Sys.init k) acts1).listening = true ∧ succeedsAt (run (Sys.init k) acts1).proc r) ∧
    ((run (Sys.init k) acts).pc = Pc.received → ∃ v, Effect.recv v ∈ (run (Sys.init k) acts).proc.trace) ∧
    (∀ x ∈ (run (Sys.init k) acts).proc.k.tokenRetrieved.buf ++
        (run (Sys.init k) acts).proc.k.tokenRetrieved.sendq,
      Effect.send x ∈ (run (Sys.init k) acts).proc.trace) := by
  induction acts using List.reverseRecOn with
  | nil =>
    refine ⟨Guarded.nil _ _, Guarded.nil _ _, ?_, ?_, ?_⟩
    · simp [run, Sys.init]
    · simp [run, Sys.init]
    · simp [run, Sys.init, hk, Chan.make]
  | append_singleton l a ih =>
    obtain ⟨ih1, ih2, ih3, ih4, ih5⟩ := ih
    obtain ⟨es, htr, h1, h2, h3, h4, h5⟩ := step_effects (run (Sys.init k) l) a
    rw [run_snoc, htr]
    refine ⟨?_, ?_, ?_, ?_, ?_⟩
    · refine Guarded.append ih1 ?_
      intro x hx hP
      subst hP
      obtain ⟨v, hv⟩ := ih4 (h1 hx)
      exact ⟨Effect.recv v, hv, v, rfl⟩
    · refine Guarded.append ih2 ?_
      intro x hx hP
      obtain ⟨v, hv⟩ := hP
      subst hv
      exact ⟨Effect.send v, ih5 v (List.mem_append_left _ (h2 v hx)), v, rfl, rfl⟩
    · intro hs
      obtain ⟨v, hv⟩ := hs
      rcases List.mem_append.mp hv with hold | hnew
      · obtain ⟨acts1, r, acts2, hacts, hl, hok⟩ := ih3 ⟨v, hold⟩
        exact ⟨acts1, r, acts2 ++ [a], by rw [hacts]; simp, hl, hok⟩
      · obtain ⟨r, ha, hl, hok⟩ := h3 v hnew
        exact ⟨l, r, [], by rw [ha], hl, hok⟩
    · intro hpc
      rcases h4 hpc with hold | hnew
      · obtain ⟨v, hv⟩ := ih4 hold
        exact ⟨v, List.mem_append_left _ hv⟩
      · obtain ⟨v, hv⟩ := hnew
        exact ⟨v, List.mem_append_right _ hv⟩
    · intro x hx
      rcases h5 x hx with hold | hnew
      · exact List.mem_append_left _ (ih5 x hold)
      · exact List.mem_append_right _ hnew

/-- C9: in every schedule of `Orchestrate` and the handlers, started on a
`Konfigurator` with the channel `NewKonfigurator` makes, each `server.Shutdown`
in the trace comes after a receive from `tokenRetrieved`, each receive after a
send of the received value, and a send is in the trace only when the schedule
holds a callback that, when it ran, had the stored state and a code `GetToken`
accepted; hence a schedule without such a callback never reaches `Shutdown`. -/
theorem shutdown_only_after_accepted_callback (k : Konfigurator)
    (hk : k.tokenRetrieved = Chan.make 1) (acts : List Action) :
    (∀ pre post, (run (Sys.init k) acts).proc.trace = pre ++ Effect.shutdown :: post →
      ∃ v, Effect.recv v ∈ pre) ∧
    (∀ pre post v, (run (Sys.init k) acts).proc.trace = pre ++ Effect.recv v :: post →
      Effect.send v ∈ pre) ∧
    ((∃ v, Effect.send v ∈ (run (Sys.init k) acts).proc.trace) →
      ∃ acts1 r acts2, acts = acts1 ++ Action.callback r :: acts2 ∧
        (run (Sys.init k) acts1).listening = true ∧ succeedsAt (run (Sys.init k) acts1).proc r) ∧
    ((∀ acts1 r acts2, acts = acts1 ++ Action.callback r :: acts2 →
        ¬ succeedsAt (run (Sys.init k) acts1).proc r) →
      Effect.shutdown ∉ (run (Sys.init k) acts).proc.trace) := by
  obtain ⟨g1, g2, g3, _, _⟩ := run_invariant k hk acts
  have c1 : ∀ pre post, (run (Sys.init k) acts).proc.trace = pre ++ Effect.shutdown :: post →
      ∃ v, Effect.recv v ∈ pre := by
    intro pre post h
    obtain ⟨y, hy, v, hv⟩ := g1 pre post _ h rfl
    exact ⟨v, hv ▸ hy⟩
  have c2 : ∀ pre post v, (run (Sys.init k) acts).proc.trace = pre ++ Effect.recv v :: post →
      Effect.send v ∈ pre := by
    intro pre post v h
    obtain ⟨y, hy, v2, hv, hv2⟩ := g2 pre post _ h ⟨v, rfl⟩
    cases hv2
    exact hv ▸ hy
  refine ⟨c1, c2, g3, ?_⟩
  intro hnone hsh
  obtain ⟨pre, post, hsplit⟩ := List.append_of_mem hsh
  obtain ⟨v, hv⟩ := c1 pre post hsplit
  obtain ⟨p1, p2, hp⟩ := List.append_of_mem hv
  have hsend : Effect.send v ∈ p1 :=
    c2 p1 (p2 ++ Effect.shutdown :: post) v (by rw [hsplit, hp]; simp)
  have hin : Effect.send v ∈ (run (Sys.init k) acts).proc.trace := by
    rw [hsplit, hp]; simp [hsend]
  obtain ⟨acts1, r, acts2, hacts, _, hok⟩ := g3 ⟨v, hin⟩
  exact hnone acts1 r acts2 hacts hok

set_option maxRecDepth 100000 in
theorem shutdown_only_after_accepted_callback_witness :
    demoKonfigurator.tokenRetrieved = Chan.make 1 ∧
    Effect.shutdown ∈ (run (Sys.init demoKonfigurator)
      [Action.orchestrate none, Action.orchestrate none, Action.callback demoCallback1,
       Action.orchestrate none, Action.orchestrate none]).proc.trace ∧
    (∀ pre post, (run (Sys.init demoKonfigurator)
      [Action.orchestrate none, Action.orchestrate none, Action.callback demoCallback1,
       Action.orchestrate none, Action.orchestrate none]).proc.trace = pre ++ Effect.shutdown :: post →
      ∃ v, Effect.recv v ∈ pre) :=
  ⟨rfl, by decide,
   (shutdown_only_after_accepted_callback demoKonfigurator rfl
      [Action.orchestrate none, Action.orchestrate none, Action.callback demoCallback1,
       Action.orchestrate none, Action.orchestrate none]).1⟩

/-! ## The authorization URL -/

theorem cut_of_not_mem (sep : Fin 256) (a : GoString) (h : sep ∉ a) : cut sep a = (a, []) := by
  induction a with
  | nil => rfl
  | cons c cs ih =>
    simp at h
    have hc : c ≠ sep := fun e => h.1 e.symm
    simp [cut, hc, ih h.2]

theorem cut_append (sep : Fin 256) (a b : GoString) (h : sep ∉ a) :
    cut sep (a ++ sep :: b) = (a, b) := by
  induction a with
  | nil => simp [cut]
  | cons c cs ih =>
    simp at h
    have hc : c ≠ sep := fun e => h.1 e.symm
    simp [cut, hc, ih h.2]

theorem splitOn_of_not_mem (sep : Fin 256) (a : GoString) (h : sep ∉ a) : splitOn sep a = [a] := by
  induction a with
  | nil => rfl
  | cons c cs ih =>
    simp at h
    have hc : c ≠ sep := fun e => h.1 e.symm
    simp [splitOn, hc, ih h.2]

theorem splitOn_append (sep : Fin 256) (a b : GoString) (h : sep ∉ a) :
    splitOn sep (a ++ sep :: b) = a :: splitOn sep b := by
  induction a with
  | nil => simp [splitOn]
  | cons c cs ih =>
    simp at h
    have hc : c ≠ sep := fun e => h.1 e.symm
    simp [splitOn, hc, ih h.2]

theorem nibble_hex : ∀ n : Fin 16,
    ishex (upperhex n.val) = true ∧ unhex (upperhex n.val) = n.val ∧ escaped (upperhex n.val) = true := by
  decide

theorem escaped_not_separator (x : Fin 256) (hx : escaped x = true) :
    x ≠ bAmp ∧ x ≠ bEq ∧ x ≠ bSemi ∧ x ≠ bHash ∧ x ≠ bQuestion := by
  refine ⟨?_, ?_, ?_, ?_, ?_⟩ <;> (intro h; subst h; revert hx; decide)

theorem plain_byte (c : Fin 256) (h : shouldEscape c = false) : c ≠ bPercent ∧ c ≠ bPlus := by
  constructor <;> (intro e; subst e; revert h; decide)

theorem escapeByte_escaped (c : Fin 256) : ∀ x ∈ escapeByte c, escaped x = true := by
  intro x hx
  unfold escapeByte at hx
  by_cases hs : shouldEscape c = true
  · rw [if_pos hs] at hx
    by_cases hsp : c = bSpace
    · rw [if_pos hsp] at hx
      simp at hx
      subst hx
      decide
    · rw [if_neg hsp] at hx
      simp at hx
      rcases hx with hx | hx | hx
      · subst hx; decide
      · subst hx
        exact (nibble_hex ⟨c.val / 16, by omega⟩).2.2
      · subst hx
        exact (nibble_hex ⟨c.val % 16, by omega⟩).2.2
  · rw [if_neg hs] at hx
    simp at hx
    subst hx
    simp at hs
    simp [escaped, hs]

theorem hex_roundtrip (c : Fin 256) :
    ishex (upperhex (c.val / 16)) = true ∧ ishex (upperhex (c.val % 16)) = true ∧
    (Fin.ofNat (unhex (upperhex (c.val / 16)) * 16 + unhex (upperhex (c.val % 16))) : Fin 256) = c := by
  have h1 := nibble_hex ⟨c.val / 16, by omega⟩
  have h2 := nibble_hex ⟨c.val % 16, by omega⟩
  refine ⟨h1.1, h2.1, ?_⟩
  have e1 : unhex (upperhex (c.val / 16)) = c.val / 16 := h1.2.1
  have e2 : unhex (upperhex (c.val % 16)) = c.val % 16 := h2.2.1
  rw [e1, e2]
  apply Fin.ext
  show (c.val / 16 * 16 + c.val % 16) % 256 = c.val
  omega

theorem escaped_QueryEscape (s : GoString) : ∀ x ∈ QueryEscape s, escaped x = true := by
  induction s with
  | nil => simp [QueryEscape]
  | cons c cs ih =>
    intro x hx
    simp only [QueryEscape, List.mem_append] at hx
    rcases hx with hx | hx
    · exact escapeByte_escaped c x hx
    · exact ih x hx

theorem QueryUnescape_cons (c : Fin 256) (cs : GoString) :
    QueryUnescape (c :: cs) =
      if c = bPercent then
        match cs with
        | h1 :: h2 :: rest =>
          if ishex h1 && ishex h2 then
            (QueryUnescape rest).map (fun r => Fin.ofNat (unhex h1 * 16 + unhex h2) :: r)
          else none
        | _ => none
      else if c = bPlus then (QueryUnescape cs).map (fun r => bSpace :: r)
      else (QueryUnescape cs).map (fun r => c :: r) := by
  rcases cs with _ | ⟨h1, _ | ⟨h2, rest⟩⟩ <;> rfl

theorem QueryUnescape_escapeByte (c : Fin 256) (rest : GoString) :
    QueryUnescape (escapeByte c ++ rest) = (QueryUnescape rest).map (fun r => c :: r) := by
  unfold escapeByte
  by_cases hs : shouldEscape c = true
  · rw [if_pos hs]
    by_cases hsp : c = bSpace
    · rw [if_pos hsp]
      subst hsp
      have hne : bPlus ≠ bPercent := by decide
      show QueryUnescape (bPlus :: rest) = _
      rw [QueryUnescape_cons, if_neg hne, if_pos rfl]
    · rw [if_neg hsp]
      obtain ⟨h1, h2, h3⟩ := hex_roundtrip c
      show QueryUnescape (bPercent :: upperhex (c.val / 16) :: upperhex (c.val % 16) :: rest) = _
      rw [QueryUnescape_cons, if_pos rfl]
      simp [h1, h2, h3]
  · rw [if_neg hs]
    simp at hs
    obtain ⟨hp, hq⟩ := plain_byte c hs
    show QueryUnescape (c :: rest) = _
    rw [QueryUnescape_cons, if_neg hp, if_neg hq]

theorem QueryUnescape_QueryEscape (s : GoString) : QueryUnescape (QueryEscape s) = some s := by
  induction s with
  | nil => rfl
  | cons c cs ih =>
    rw [QueryEscape, QueryUnescape_escapeByte, ih]
    rfl

theorem encodePair_bytes (p : GoString × GoString) :
    ∀ x ∈ encodePair p, escaped x = true ∨ x = bEq := by
  intro x hx
  simp only [encodePair, List.mem_append, List.mem_singleton] at hx
  rcases hx with (hx | hx) | hx
  · exact Or.inl (escaped_QueryEscape _ x hx)
  · exact Or.inr hx
  · exact Or.inl (escaped_QueryEscape _ x hx)

theorem encodePair_no_separator (p : GoString × GoString) :
    bAmp ∉ encodePair p ∧ bSemi ∉ encodePair p ∧ bHash ∉ encodePair p := by
  refine ⟨?_, ?_, ?_⟩ <;> intro h <;> rcases encodePair_bytes p _ h with e | e
  · exact (escaped_not_separator _ e).1 rfl
  · exact absurd e (by decide)
  · exact (escaped_not_separator _ e).2.2.1 rfl
  · exact absurd e (by decide)
  · exact (escaped_not_separator _ e).2.2.2.1 rfl
  · exact absurd e (by decide)

theorem encodeTail_no_hash (ps : Values) : bHash ∉ encodeTail ps := by
  induction ps with
  | nil => simp [encodeTail]
  | cons p ps ih =>
    intro h
    simp only [encodeTail, List.cons_append, List.mem_cons, List.mem_append] at h
    rcases h with h | h | h
    · exact absurd h (by decide)
    · exact (encodePair_no_separator p).2.2 h
    · exact ih h

theorem encode_foldl (ps : Values) (buf : GoString) (hb : buf ≠ []) :
    ps.foldl
      (fun buf p =>
        (if buf.length > 0 then buf ++ [bAmp] else buf) ++ QueryEscape p.1 ++ [bEq] ++ QueryEscape p.2)
      buf = buf ++ encodeTail ps := by
  induction ps generalizing buf with
  | nil => simp [encodeTail]
  | cons p ps ih =>
    have hlen : buf.length > 0 := List.length_pos.mpr hb
    rw [List.foldl_cons, if_pos hlen, ih _ (by simp)]
    simp [encodeTail, encodePair]

theorem Encode_eq (v : Values) :
    Values.Encode v =
      match sortByKey v with
      | [] => []
      | p :: ps => encodePair p ++ encodeTail ps := by
  unfold Values.Encode
  cases sortByKey v with
  | nil => rfl
  | cons p ps =>
    rw [List.foldl_cons]
    have h0 : ¬ (([] : GoString).length > 0) := by simp
    rw [if_neg h0, encode_foldl ps _ (by simp)]
    simp [encodePair]

theorem parseSegment_encodePair (p : GoString × GoString) : parseSegment (encodePair p) = some p := by
  unfold parseSegment
  rw [if_neg (encodePair_no_separator p).2.1, if_neg (by simp [encodePair])]
  have hk : bEq ∉ QueryEscape p.1 := by
    intro h
    exact (escaped_not_separator _ (escaped_QueryEscape _ _ h)).2.1 rfl
  have hcut : cut bEq (encodePair p) = (QueryEscape p.1, QueryEscape p.2) := by
    unfold encodePair
    rw [List.append_assoc]
    exact cut_append bEq _ _ hk
  rw [hcut]
  simp [QueryUnescape_QueryEscape]

theorem splitOn_encode (ps : Values) (p : GoString × GoString) :
    splitOn bAmp (encodePair p ++ encodeTail ps) = encodePair p :: ps.map encodePair := by
  induction ps generalizing p with
  | nil =>
    simp only [encodeTail, List.append_nil, List.map_nil]
    exact splitOn_of_not_mem _ _ (encodePair_no_separator p).1
  | cons q qs ih =>
    simp only [encodeTail, List.map_cons, List.cons_append]
    rw [splitOn_append _ _ _ (encodePair_no_separator p).1, ih]

theorem ParseQuery_Encode (v : Values) : ParseQuery (Values.Encode v) = sortByKey v := by
  rw [Encode_eq]
  cases sortByKey v with
  | nil => simp [ParseQuery, splitOn, parseSegment]
  | cons p ps =>
    simp only [ParseQuery]
    rw [splitOn_encode, List.filterMap_cons, parseSegment_encodePair]
    simp only
    congr 1
    induction ps with
    | nil => rfl
    | cons q qs ih => rw [List.map_cons, List.filterMap_cons, parseSegment_encodePair]; simp [ih]

theorem Encode_no_hash (v : Values) : bHash ∉ Values.Encode v := by
  rw [Encode_eq]
  cases sortByKey v with
  | nil => simp
  | cons p ps =>
    simp only [List.mem_append, not_or]
    exact ⟨(encodePair_no_separator p).2.2, encodeTail_no_hash ps⟩

theorem splitURL_append (base query : GoString) (hq : bQuestion ∉ base) (hh : bHash ∉ base)
    (hhq : bHash ∉ query) : splitURL (base ++ [bQuestion] ++ query) = (base, query) := by
  unfold splitURL
  have hnot : bHash ∉ base ++ [bQuestion] ++ query := by
    simp only [List.mem_append, List.mem_singleton, not_or]
    exact ⟨⟨hh, by decide⟩, hhq⟩
  rw [cut_of_not_mem _ _ hnot, List.append_assoc]
  exact cut_append _ _ _ hq

set_option maxRecDepth 100000 in
theorem sortByKey_authParams (a b c d e f : GoString) :
    sortByKey [(gostr "client_id", a), (gostr "nonce", b), (gostr "redirect_uri", c),
      (gostr "response_type", d), (gostr "scope", e), (gostr "state", f)] =
    [(gostr "client_id", a), (gostr "nonce", b), (gostr "redirect_uri", c),
      (gostr "response_type", d), (gostr "scope", e), (gostr "state", f)] := by
  have h1 : strLe (gostr "client_id") (gostr "nonce") = true := by decide
  have h2 : strLe (gostr "nonce") (gostr "redirect_uri") = true := by decide
  have h3 : strLe (gostr "redirect_uri") (gostr "response_type") = true := by decide
  have h4 : strLe (gostr "response_type") (gostr "scope") = true := by decide
  have h5 : strLe (gostr "scope") (gostr "state") = true := by decide
  simp only [sortByKey, List.foldr, insertByKey, h1, h2, h3, h4, h5, if_true]

/-- C4 (amended): when the authorization endpoint `config.Endpoint.AuthURL`
holds neither `?` nor `#`, the query of the URL `AuthCodeURL(state, nonceValue)`
returns decodes to exactly the six pairs `client_id = config.ClientID`,
`nonce = nonceValue`, `redirect_uri = config.RedirectURL`,
`response_type = id_token`, `scope = openid`, `state = state`, each key once and
nothing else, and the part of the URL before the query is `AuthURL`. -/
theorem AuthCodeURL_query (o : OidcGenerator) (state nonceValue : GoString)
    (hq : bQuestion ∉ o.config.Endpoint.AuthURL) (hh : bHash ∉ o.config.Endpoint.AuthURL) :
    urlQuery (o.AuthCodeURL state nonceValue) =
      [(gostr "client_id", o.config.ClientID), (gostr "nonce", nonceValue),
       (gostr "redirect_uri", o.config.RedirectURL), (gostr "response_type", gostr "id_token"),
       (gostr "scope", gostr "openid"), (gostr "state", state)] ∧
    (splitURL (o.AuthCodeURL state nonceValue)).1 = o.config.Endpoint.AuthURL := by
  unfold urlQuery OidcGenerator.AuthCodeURL
  simp only [Values.Add, List.nil_append, List.cons_append]
  rw [splitURL_append _ _ hq hh (Encode_no_hash _), ParseQuery_Encode, sortByKey_authParams]
  exact ⟨rfl, rfl⟩

set_option maxRecDepth 100000 in
theorem AuthCodeURL_query_witness :
    bQuestion ∉ demoGenerator.config.Endpoint.AuthURL ∧
    (urlQuery (demoGenerator.AuthCodeURL (gostr "abc123") (gostr "n 1"))).Get (gostr "nonce") = gostr "n 1" :=
  ⟨by decide,
   by rw [(AuthCodeURL_query demoGenerator (gostr "abc123") (gostr "n 1") (by decide) (by decide)).1]; decide⟩

set_option maxRecDepth 100000 in
/-- C4 (as stated, refuted): for the endpoint `https://idp.test/auth?p=1` the
decoded query is not the six pairs (`client_id` is missing, swallowed by the
value of `p`), and the part before the query is not `AuthURL`. -/
theorem AuthCodeURL_query_counterexample :
    urlQuery (queryEndpointGenerator.AuthCodeURL (gostr "abc123") (gostr "n1")) ≠
      [(gostr "client_id", queryEndpointGenerator.config.ClientID), (gostr "nonce", gostr "n1"),
       (gostr "redirect_uri", queryEndpointGenerator.config.RedirectURL),
       (gostr "response_type", gostr "id_token"), (gostr "scope", gostr "openid"),
       (gostr "state", gostr "abc123")] ∧
    (urlQuery (queryEndpointGenerator.AuthCodeURL (gostr "abc123") (gostr "n1"))).Get (gostr "client_id") = [] ∧
    (splitURL (queryEndpointGenerator.AuthCodeURL (gostr "abc123") (gostr "n1"))).1 ≠
      queryEndpointGenerator.config.Endpoint.AuthURL := by
  refine ⟨?_, ?_, ?_⟩ <;> decide

/-! ## The root route -/

theorem escaped_ascii (x : Fin 256) (h : escaped x = true) : x.val < 128 := by
  by_contra hge
  have hs : shouldEscape x = true := by
    unfold shouldEscape
    rw [if_neg (by omega), if_neg (by omega)]
  have hp : x ≠ bPlus := by
    intro e; subst e; exact hge (by decide)
  have hq : x ≠ bPercent := by
    intro e; subst e; exact hge (by decide)
  simp [escaped, hs, hp, hq] at h

theorem encodeTail_bytes (ps : Values) :
    ∀ x ∈ encodeTail ps, escaped x = true ∨ x = bEq ∨ x = bAmp := by
  induction ps with
  | nil => simp [encodeTail]
  | cons p ps ih =>
    intro x hx
    simp only [encodeTail, List.cons_append, List.mem_cons, List.mem_append] at hx
    rcases hx with hx | hx | hx
    · exact Or.inr (Or.inr hx)
    · rcases encodePair_bytes p x hx with h | h
      · exact Or.inl h
      · exact Or.inr (Or.inl h)
    · exact ih x hx

theorem Encode_ascii (v : Values) : ∀ x ∈ Values.Encode v, x.val < 128 := by
  have hbyte : ∀ x : Fin 256, escaped x = true ∨ x = bEq ∨ x = bAmp → x.val < 128 := by
    intro x hx
    rcases hx with h | h | h
    · exact escaped_ascii x h
    · subst h; decide
    · subst h; decide
  rw [Encode_eq]
  cases sortByKey v with
  | nil => simp
  | cons p ps =>
    intro x hx
    simp only [List.mem_append] at hx
    rcases hx with hx | hx
    · rcases encodePair_bytes p x hx with h | h
      · exact hbyte x (Or.inl h)
      · exact hbyte x (Or.inr (Or.inl h))
    · exact hbyte x (encodeTail_bytes ps x hx)

theorem AuthCodeURL_ascii (o : OidcGenerator) (state nonceValue : GoString)
    (h : ∀ b ∈ o.config.Endpoint.AuthURL, b.val < 128) :
    ∀ b ∈ o.AuthCodeURL state nonceValue, b.val < 128 := by
  intro b hb
  unfold OidcGenerator.AuthCodeURL at hb
  simp only [List.mem_append, List.mem_singleton] at hb
  rcases hb with (hb | hb) | hb
  · exact h b hb
  · subst hb; decide
  · exact Encode_ascii _ b hb

theorem hexEscapeNonASCII_ascii (s : GoString) (h : ∀ b ∈ s, b.val < 128) :
    hexEscapeNonASCII s = s := by
  induction s with
  | nil => rfl
  | cons c cs ih =>
    have hc : ¬ 128 ≤ c.val := by
      have := h c (by simp)
      omega
    rw [hexEscapeNonASCII, if_neg hc, ih (fun b hb => h b (by simp [hb]))]

theorem redirectTarget_scheme (lib : GoLib) (r : RequestLine) (url scheme rest : GoString)
    (h : getScheme (cut bHash url).1 = some (scheme, rest)) (hne : scheme ≠ []) :
    redirectTarget lib r url = url := by
  unfold redirectTarget
  rw [h]
  cases scheme with
  | nil => exact absurd rfl hne
  | cons c cs => rfl

theorem Redirect_fresh (lib : GoLib) (r : RequestLine) (url : GoString) (code : Nat) :
    (ResponseWriter.fresh.Redirect lib r url code).status = some code ∧
    headerGet (ResponseWriter.fresh.Redirect lib r url code).header (gostr "Location") =
      hexEscapeNonASCII (redirectTarget lib r url) := by
  have hne : gostr "Location" ≠ gostr "Content-Type" := by decide
  have hhg : gostr "HEAD" ≠ gostr "GET" := by decide
  unfold ResponseWriter.Redirect
  by_cases hget : r.Method = gostr "GET"
  · simp [ResponseWriter.fresh, ResponseWriter.WriteHeader, ResponseWriter.WriteString, headerSet,
      headerGet, hget, hne]
  · by_cases hhead : r.Method = gostr "HEAD"
    · simp [ResponseWriter.fresh, ResponseWriter.WriteHeader, ResponseWriter.WriteString, headerSet,
        headerGet, hhead, hne, hhg]
    · simp [ResponseWriter.fresh, ResponseWriter.WriteHeader, ResponseWriter.WriteString, headerSet,
        headerGet, hget, hhead]

/-- C7 (amended): `rootHandler` writes status 302, performs the redirect to the
URL `AuthCodeURL` builds from the stored state as its only effect and leaves the
`Konfigurator` as it was, so a second request is answered from the same state
and generator. When that URL begins with a scheme, the `Location` header is the
URL with each non-ASCII byte written as `%` and two hex digits, and it is the
URL itself when `config.Endpoint.AuthURL` is ASCII. -/
theorem rootHandler_redirects (p : Proc) (nonce nonce2 : GoString) (r r2 : RequestLine) :
    (rootHandler p nonce ResponseWriter.fresh r).w.status = some 302 ∧
    (rootHandler p nonce ResponseWriter.fresh r).proc.k = p.k ∧
    (rootHandler p nonce ResponseWriter.fresh r).returned = true ∧
    (rootHandler p nonce ResponseWriter.fresh r).proc.trace = p.trace ++
      [Effect.redirect (p.k.config.AuthCodeURL p.k.state nonce) 302] ∧
    ((∃ scheme rest,
        getScheme (cut bHash (p.k.config.AuthCodeURL p.k.state nonce)).1 = some (scheme, rest) ∧
        scheme ≠ []) →
      headerGet (rootHandler p nonce ResponseWriter.fresh r).w.header (gostr "Location") =
        hexEscapeNonASCII (p.k.config.AuthCodeURL p.k.state nonce) ∧
      ((∀ b ∈ p.k.config.config.Endpoint.AuthURL, b.val < 128) →
        headerGet (rootHandler p nonce ResponseWriter.fresh r).w.header (gostr "Location") =
          p.k.config.AuthCodeURL p.k.state nonce)) ∧
    (rootHandler (rootHandler p nonce ResponseWriter.fresh r).proc nonce2 ResponseWriter.fresh r2).w.status =
      some 302 ∧
    (rootHandler (rootHandler p nonce ResponseWriter.fresh r).proc nonce2 ResponseWriter.fresh r2).proc.k =
      p.k ∧
    (rootHandler (rootHandler p nonce ResponseWriter.fresh r).proc nonce2 ResponseWriter.fresh
      r2).proc.trace = p.trace ++
        [Effect.redirect (p.k.config.AuthCodeURL p.k.state nonce) 302,
         Effect.redirect (p.k.config.AuthCodeURL p.k.state nonce2) 302] := by
  refine ⟨(Redirect_fresh _ _ _ _).1, rfl, rfl, rfl, ?_, (Redirect_fresh _ _ _ _).1, rfl, ?_⟩
  · intro hs
    obtain ⟨scheme, rest, hsch, hne⟩ := hs
    have hloc : headerGet (rootHandler p nonce ResponseWriter.fresh r).w.header (gostr "Location") =
        hexEscapeNonASCII (p.k.config.AuthCodeURL p.k.state nonce) := by
      have h := (Redirect_fresh p.k.config.lib r (p.k.config.AuthCodeURL p.k.state nonce) StatusFound).2
      rw [redirectTarget_scheme _ _ _ scheme rest hsch hne] at h
      exact h
    refine ⟨hloc, ?_⟩
    intro hascii
    rw [hloc, hexEscapeNonASCII_ascii _ (AuthCodeURL_ascii _ _ _ hascii)]
  · simp [rootHandler, OidcGenerator.AuthCodeURLFresh, StatusFound]

set_option maxRecDepth 100000 in
theorem rootHandler_redirects_witness :
    (∃ scheme rest,
      getScheme (cut bHash (demoProc.k.config.AuthCodeURL demoProc.k.state (gostr "n1"))).1 =
        some (scheme, rest) ∧ scheme ≠ []) ∧
    headerGet (rootHandler demoProc (gostr "n1") ResponseWriter.fresh demoRootRequest).w.header
      (gostr "Location") = demoProc.k.config.AuthCodeURL demoProc.k.state (gostr "n1") :=
  ⟨⟨gostr "https", (demoProc.k.config.AuthCodeURL demoProc.k.state (gostr "n1")).drop 6,
     by decide, by decide⟩,
   ((rootHandler_redirects demoProc (gostr "n1") (gostr "n2") demoRootRequest demoRootRequest).2.2.2.2.1
      ⟨gostr "https", (demoProc.k.config.AuthCodeURL demoProc.k.state (gostr "n1")).drop 6,
       by decide, by decide⟩).2 (by decide)⟩

set_option maxRecDepth 100000 in
/-- C7 (as stated, refuted): for the endpoint `https://idp.test/café` the
`Location` header holds `%c3%a9` where the URL `AuthCodeURL` built holds the two
bytes of `é`; and for the endpoint `idp.test/auth`, which has no scheme, the
header holds the URL made absolute against the request path, `/idp.test/auth?…`. -/
theorem rootHandler_location_counterexample :
    headerGet (rootHandler accentProc (gostr "n1") ResponseWriter.fresh demoRootRequest).w.header
      (gostr "Location") ≠ accentProc.k.config.AuthCodeURL accentProc.k.state (gostr "n1") ∧
    headerGet (rootHandler accentProc (gostr "n1") ResponseWriter.fresh demoRootRequest).w.header
      (gostr "Location") =
      gostr "https://idp.test/caf%c3%a9" ++
        (accentProc.k.config.AuthCodeURL accentProc.k.state (gostr "n1")).drop 22 ∧
    headerGet (rootHandler schemelessProc (gostr "n1") ResponseWriter.fresh demoRootRequest).w.header
      (gostr "Location") =
      gostr "/" ++ schemelessProc.k.config.AuthCodeURL schemelessProc.k.state (gostr "n1") := by
  refine ⟨?_, ?_, ?_⟩ <;> decide

end Konfig
